import Mathlib

/-!
Shallow embedding of the request-preparation core of the repository:
`src/floki/llm/utils/request.py` (`RequestHandler`) and
`src/floki/types/llm.py` (the pydantic configuration schema).

Python data is modelled as follows: machine floats that are only ever
compared against constant bounds are modelled as rationals (`ℚ`); Python
`None` is `Option.none`; a raw mapping field distinguishes "key absent"
(`none`) from "key present with value None" (`some none`); fallible
construction returns `Except`.
-/

namespace Floki

/-! ## Request normalizer (`request.py`) -/

/-- A message mapping (`Dict[str, Any]` with the keys the code reads):
`msg.get("role")` is `role`, the remaining payload is `content`. -/
structure MsgDict where
  role : Option String
  content : Option String
  deriving DecidableEq, Repr

/-- A typed message object (`BaseMessage` from `floki.types.message`,
an external collaborator of this slice). Modelled from the spec: a record
with a role and a content; `model_dump` returns its canonical record form. -/
structure BaseMsg where
  role : String
  content : String
  deriving DecidableEq, Repr

/-- `BaseMessage.model_dump()`: the canonical mapping form of a typed
message object. -/
def BaseMsg.model_dump (m : BaseMsg) : MsgDict :=
  { role := some m.role, content := some m.content }

/-- The polymorphic input accepted by `normalize_chat_messages`: plain text,
a typed message object, a mapping, a (non-str, non-dict) iterable, or an
unclassifiable value such as an integer. Ordered iterables are modelled as
lists. -/
inductive RawInput where
  | str (s : String)
  | base (m : BaseMsg)
  | dict (d : MsgDict)
  | list (xs : List RawInput)
  | int (n : Int)

/-- Python's `type(msg)` name, used in the unsupported-format error. -/
def RawInput.typeName : RawInput → String
  | .str _ => "str"
  | .base _ => "BaseMessage"
  | .dict _ => "dict"
  | .list _ => "list"
  | .int _ => "int"

/-- The two `ValueError` shapes `normalize_chat_messages` raises:
an unrecognized role (carrying the offending role value) and an
unsupported message format (carrying the runtime type name). -/
inductive NormError where
  | invalidRole (role : Option String)
  | unsupportedFormat (tyName : String)
  deriving DecidableEq, Repr

/-- `role in {"user", "assistant", "tool", "system"}` where `role` is
`msg.get("role")` (possibly `None`). -/
def validRole (role : Option String) : Bool :=
  role == some "user" || role == some "assistant" ||
  role == some "tool" || role == some "system"

mutual

/-- Size of one raw input: every node counts 1, a list also counts its
elements. This is the termination measure of the worklist loop. -/
def sizeR : RawInput → Nat
  | .list xs => 1 + sizeL xs
  | _ => 1

/-- Total size of a list of raw inputs. -/
def sizeL : List RawInput → Nat
  | [] => 0
  | x :: xs => sizeR x + sizeL xs

end

theorem sizeR_pos (x : RawInput) : 1 ≤ sizeR x := by
  cases x <;> simp [sizeR]

theorem sizeL_append (xs ys : List RawInput) :
    sizeL (xs ++ ys) = sizeL xs + sizeL ys := by
  induction xs with
  | nil => simp [sizeL]
  | cons x xs ih => simp [sizeL, ih]; omega

/-- The worklist loop of `normalize_chat_messages`: `queue` is the FIFO
work queue, `acc` the `normalized_messages` accumulator. Each iteration
pops the front element (`queue.pop(0)`) and dispatches on its type in the
source's branch order; a nested iterable is appended to the back of the
queue (`queue.extend(msg)`). -/
def normGo : List RawInput → List MsgDict → Except NormError (List MsgDict)
  | [], acc => .ok acc
  | msg :: queue, acc =>
    match msg with
    | .str s => normGo queue (acc ++ [{ role := some "user", content := some s }])
    | .base m => normGo queue (acc ++ [m.model_dump])
    | .dict d =>
      if validRole d.role then normGo queue (acc ++ [d])
      else .error (.invalidRole d.role)
    | .list xs => normGo (queue ++ xs) acc
    | .int n => .error (.unsupportedFormat (RawInput.int n).typeName)
termination_by queue _ => sizeL queue
decreasing_by
  all_goals simp only [sizeL, sizeL_append, sizeR]
  all_goals omega

/-- `RequestHandler.normalize_chat_messages`: seeds the queue with the
single input value and runs the worklist loop. -/
def normalize_chat_messages (messages : RawInput) : Except NormError (List MsgDict) :=
  normGo [messages] []

/-- The worklist loop instrumented with a fuel bound: each loop iteration
consumes one unit of fuel, and `none` means the fuel ran out before the
queue emptied. Used to state that the loop's total work is bounded by the
size of the input structure. -/
def normGoFuel : Nat → List RawInput → List MsgDict → Option (Except NormError (List MsgDict))
  | _, [], acc => some (.ok acc)
  | 0, _ :: _, _ => none
  | fuel + 1, msg :: queue, acc =>
    match msg with
    | .str s => normGoFuel fuel queue (acc ++ [{ role := some "user", content := some s }])
    | .base m => normGoFuel fuel queue (acc ++ [m.model_dump])
    | .dict d =>
      if validRole d.role then normGoFuel fuel queue (acc ++ [d])
      else some (.error (.invalidRole d.role))
    | .list xs => normGoFuel fuel (queue ++ xs) acc
    | .int n => some (.error (.unsupportedFormat (RawInput.int n).typeName))

/-! ## `RequestHandler.process_params` (`request.py`) -/

/-- An opaque tool descriptor (element of the `tools` argument, a
`Dict[str, Any]`). -/
structure ToolDescr where
  data : List (String × String)
  deriving DecidableEq, Repr

/-- A parameter value stored in the request-parameter mapping: an opaque
scalar, or a list (as produced for the formatted `tools` entry). -/
inductive PVal where
  | prim (s : String)
  | plist (xs : List PVal)

/-- Python dict lookup `params[k]`. -/
def dictGet (m : List (String × PVal)) (k : String) : Option PVal :=
  (m.find? (fun p => p.1 = k)).map Prod.snd

/-- Python dict assignment `params[k] = v`: replaces the value in place
when the key exists (keeping its position), otherwise appends the new
entry (insertion order). -/
def dictSet (m : List (String × PVal)) (k : String) (v : PVal) : List (String × PVal) :=
  if m.any (fun p => p.1 = k) then
    m.map (fun p => if p.1 = k then (k, v) else p)
  else m ++ [(k, v)]

/-- `RequestHandler.process_params`. The two collaborators are passed as
function arguments: `format_tool t provider` is
`ToolHelper.format_tool(tool, tool_format=llm_provider)` and
`generate_request rm provider params` is
`StructureHandler.generate_request(response_model=rm, llm_provider=..., **params)`,
whose result replaces the whole mapping. `tools = some []` (an empty list)
and `tools = none` are both falsy in Python and skip the tools branch;
likewise for `response_model`. -/
def process_params
    (format_tool : ToolDescr → String → PVal)
    (generate_request : String → String → List (String × PVal) → List (String × PVal))
    (params : List (String × PVal)) (llm_provider : String)
    (tools : Option (List ToolDescr)) (response_model : Option String) :
    List (String × PVal) :=
  let params :=
    match tools with
    | some (t :: ts) =>
        dictSet params "tools" (.plist (((t :: ts)).map (fun tool => format_tool tool llm_provider)))
    | _ => params
  match response_model with
  | some rm => generate_request rm llm_provider params
  | none => params

/-! ## Configuration schema (`types/llm.py`)

A raw mapping field is `Option (Option α)`: `none` = key absent,
`some none` = key present with value `None`, `some (some v)` = value.
Validation errors carry the offending field name. -/

abbrev RawField (α : Type) := Option (Option α)

/-- Pydantic field resolution combined with the `none_to_default`
before-validator shared by every record: an absent key takes the field's
declared default, an explicit `None` raises `PydanticUseDefault` which
also substitutes the declared default, and any other value is kept. -/
def resolveField {α : Type} (dflt : Option α) : RawField α → Option α
  | none => dflt
  | some none => dflt
  | some (some v) => some v

/-- Errors raised during record construction: pydantic `ValidationError`
(the spec's SchemaValidationError) naming the offending field, or a Python
`AttributeError` naming the missing attribute (raised inside
`sync_model_name`). -/
inductive SchemaError where
  | validationError (field : String)
  | attributeError (attr : String)
  deriving DecidableEq, Repr

/-- `OpenAIClientConfig`: validated record. -/
structure OpenAIClientConfig where
  base_url : Option String
  api_key : Option String
  organization : Option String
  project : Option String
  deriving DecidableEq, Repr

/-- A raw mapping for `OpenAIClientConfig` (field defaults model omitted
keys). -/
structure RawOpenAIClientConfig where
  base_url : RawField String := none
  api_key : RawField String := none
  organization : RawField String := none
  project : RawField String := none
  deriving DecidableEq, Repr

/-- Constructing an `OpenAIClientConfig` from a mapping. Every field is
optional, so construction always succeeds; `base_url` has declared default
`"https://api.openai.com/v1"`, the other declared defaults are `None`. -/
def OpenAIClientConfig.validate (raw : RawOpenAIClientConfig) : OpenAIClientConfig :=
  { base_url := resolveField (some "https://api.openai.com/v1") raw.base_url
    api_key := resolveField none raw.api_key
    organization := resolveField none raw.organization
    project := resolveField none raw.project }

/-- `OpenAIClientConfig.model_dump()`: every field of the record appears in
the dump, `None`-valued fields included. -/
def OpenAIClientConfig.model_dump (c : OpenAIClientConfig) : RawOpenAIClientConfig :=
  { base_url := some c.base_url
    api_key := some c.api_key
    organization := some c.organization
    project := some c.project }

/-- A raw configuration mapping as handled by `PromptyModelConfig`
(`values['configuration']` when given as a dict). Its keys are the union of
the fields of the three model-config classes; unknown extra keys are
ignored by pydantic and therefore not modelled. `api_key`/`token` of the
Hugging Face variant (`Union[str, bool]`) and `proxies` (`Any`) are
modelled as strings; `headers`/`cookies` as association lists. -/
structure RawModelConfigDict where
  type : RawField String := none
  base_url : RawField String := none
  api_key : RawField String := none
  organization : RawField String := none
  project : RawField String := none
  name : RawField String := none
  azure_ad_token : RawField String := none
  api_version : RawField String := none
  azure_endpoint : RawField String := none
  azure_deployment : RawField String := none
  azure_client_id : RawField String := none
  model : RawField String := none
  token : RawField String := none
  timeout : RawField ℚ := none
  headers : RawField (List (String × String)) := none
  cookies : RawField (List (String × String)) := none
  proxies : RawField String := none
  deriving DecidableEq, Repr

/-- `OpenAIModelConfig` (extends `OpenAIClientConfig` with the
discriminator literal `type="openai"` and a required-with-default model
`name`). The literal `type` field is not stored: it is `"openai"` on every
instance. -/
structure OpenAIModelConfig where
  base_url : Option String
  api_key : Option String
  organization : Option String
  project : Option String
  name : String
  deriving DecidableEq, Repr

/-- `OpenAIModelConfig(**d)`: fails when the discriminator literal does not
resolve to `"openai"`. -/
def OpenAIModelConfig.validate (raw : RawModelConfigDict) : Except SchemaError OpenAIModelConfig :=
  if resolveField (some "openai") raw.type = some "openai" then
    .ok { base_url := resolveField (some "https://api.openai.com/v1") raw.base_url
          api_key := resolveField none raw.api_key
          organization := resolveField none raw.organization
          project := resolveField none raw.project
          name := (resolveField (some "gpt-4o") raw.name).getD "gpt-4o" }
  else .error (.validationError "type")

/-- `OpenAIModelConfig.model_dump()`: its own fields only; keys of the
other variants are absent from the dump. -/
def OpenAIModelConfig.model_dump (c : OpenAIModelConfig) : RawModelConfigDict :=
  { type := some (some "openai")
    base_url := some c.base_url
    api_key := some c.api_key
    organization := some c.organization
    project := some c.project
    name := some (some c.name) }

/-- `AzureOpenAIModelConfig` (extends `AzureOpenAIClientConfig` with the
discriminator literal `type="azure_openai"`). `azure_endpoint` is declared
with no default, hence required. -/
structure AzureOpenAIModelConfig where
  api_key : Option String
  azure_ad_token : Option String
  organization : Option String
  project : Option String
  api_version : Option String
  azure_endpoint : String
  azure_deployment : Option String
  azure_client_id : Option String
  deriving DecidableEq, Repr

/-- `AzureOpenAIModelConfig(**d)`: fails when the discriminator does not
resolve to `"azure_openai"` or when `azure_endpoint` is absent or `None`
(it has no declared default to substitute). -/
def AzureOpenAIModelConfig.validate (raw : RawModelConfigDict) : Except SchemaError AzureOpenAIModelConfig :=
  if resolveField (some "azure_openai") raw.type = some "azure_openai" then
    match raw.azure_endpoint with
    | some (some ep) =>
      .ok { api_key := resolveField none raw.api_key
            azure_ad_token := resolveField none raw.azure_ad_token
            organization := resolveField none raw.organization
            project := resolveField none raw.project
            api_version := resolveField (some "2024-07-01-preview") raw.api_version
            azure_endpoint := ep
            azure_deployment := resolveField (some "gpt-4o") raw.azure_deployment
            azure_client_id := resolveField none raw.azure_client_id }
    | _ => .error (.validationError "azure_endpoint")
  else .error (.validationError "type")

/-- `AzureOpenAIModelConfig.model_dump()`. -/
def AzureOpenAIModelConfig.model_dump (c : AzureOpenAIModelConfig) : RawModelConfigDict :=
  { type := some (some "azure_openai")
    api_key := some c.api_key
    azure_ad_token := some c.azure_ad_token
    organization := some c.organization
    project := some c.project
    api_version := some c.api_version
    azure_endpoint := some (some c.azure_endpoint)
    azure_deployment := some c.azure_deployment
    azure_client_id := some c.azure_client_id }

/-- `HFHubModelConfig` (extends `HFInferenceClientConfig` with the
discriminator literal `type="huggingface"`). -/
structure HFHubModelConfig where
  model : Option String
  api_key : Option String
  token : Option String
  base_url : Option String
  timeout : Option ℚ
  headers : Option (List (String × String))
  cookies : Option (List (String × String))
  proxies : Option String
  deriving DecidableEq, Repr

/-- `HFHubModelConfig(**d)`: fails only when the discriminator does not
resolve to `"huggingface"`; every other field is optional with default
`None`. -/
def HFHubModelConfig.validate (raw : RawModelConfigDict) : Except SchemaError HFHubModelConfig :=
  if resolveField (some "huggingface") raw.type = some "huggingface" then
    .ok { model := resolveField none raw.model
          api_key := resolveField none raw.api_key
          token := resolveField none raw.token
          base_url := resolveField none raw.base_url
          timeout := resolveField none raw.timeout
          headers := resolveField none raw.headers
          cookies := resolveField none raw.cookies
          proxies := resolveField none raw.proxies }
  else .error (.validationError "type")

/-- `HFHubModelConfig.model_dump()`. -/
def HFHubModelConfig.model_dump (c : HFHubModelConfig) : RawModelConfigDict :=
  { type := some (some "huggingface")
    model := some c.model
    api_key := some c.api_key
    token := some c.token
    base_url := some c.base_url
    timeout := some c.timeout
    headers := some c.headers
    cookies := some c.cookies
    proxies := some c.proxies }

/-! ### Parameter sets -/

/-- Raw value for the `logprobs` key: the text-completion class types it
as an integer, the chat-completion class as a boolean, so the raw mapping
value can be either. -/
inductive LogProbsVal where
  | int (i : Int)
  | bool (b : Bool)
  deriving DecidableEq, Repr

/-- `stop`: `Union[str, List[str]]`. -/
inductive StopVal where
  | str (s : String)
  | strList (xs : List String)
  deriving DecidableEq, Repr

/-- `tool_choice` / `function_call`: `Union[str, Dict[str, Any]]`, the
dict payload modelled as an association list. -/
inductive StrOrMap where
  | str (s : String)
  | map (d : List (String × String))
  deriving DecidableEq, Repr

/-- A raw parameters mapping as handled by `PromptyModelConfig`. Its keys
are the union of the fields of both parameter classes; extra keys are
ignored by pydantic. `response_format`
(`Dict[Literal["type"], Literal["text", "json_object"]]`) is modelled by
its single `"type"` value; `logit_bias` keys (`Union[str, int]`) are
modelled as strings. -/
structure RawParamsDict where
  model : RawField String := none
  temperature : RawField ℚ := none
  max_tokens : RawField Int := none
  top_p : RawField ℚ := none
  frequency_penalty : RawField ℚ := none
  presence_penalty : RawField ℚ := none
  stop : RawField StopVal := none
  stream : RawField Bool := none
  best_of : RawField Int := none
  echo : RawField Bool := none
  suffix : RawField String := none
  logprobs : RawField LogProbsVal := none
  logit_bias : RawField (List (String × ℚ)) := none
  top_logprobs : RawField Int := none
  n : RawField Int := none
  response_format : RawField String := none
  tools : RawField (List ToolDescr) := none
  tool_choice : RawField StrOrMap := none
  function_call : RawField StrOrMap := none
  seed : RawField Int := none
  user : RawField String := none
  deriving DecidableEq, Repr

/-- `ge`/`le` bound check on a present rational field value (`None` passes:
the constraint only applies when the value is present). -/
def checkRangeQ (field : String) (lo hi : ℚ) : Option ℚ → Except SchemaError (Option ℚ)
  | none => .ok none
  | some v => if lo ≤ v ∧ v ≤ hi then .ok (some v) else .error (.validationError field)

/-- `ge`/`le` bound check on a present integer field value. -/
def checkRangeI (field : String) (lo hi : Int) : Option Int → Except SchemaError (Option Int)
  | none => .ok none
  | some v => if lo ≤ v ∧ v ≤ hi then .ok (some v) else .error (.validationError field)

/-- `ge`-only bound check on a present integer field value (`best_of`). -/
def checkGeI (field : String) (lo : Int) : Option Int → Except SchemaError (Option Int)
  | none => .ok none
  | some v => if lo ≤ v then .ok (some v) else .error (.validationError field)

/-- Pydantic lax boolean coercion for the chat `logprobs` field: a bool is
kept, the integers 0 and 1 coerce, any other value fails. -/
def coerceBool (field : String) : Option LogProbsVal → Except SchemaError (Option Bool)
  | none => .ok none
  | some (.bool b) => .ok (some b)
  | some (.int i) =>
    if i = 0 then .ok (some false)
    else if i = 1 then .ok (some true)
    else .error (.validationError field)

/-- Pydantic integer validation for the text `logprobs` field: a bool is
not a valid integer in pydantic v2. -/
def coerceInt (field : String) : Option LogProbsVal → Except SchemaError (Option Int)
  | none => .ok none
  | some (.int i) => .ok (some i)
  | some (.bool _) => .error (.validationError field)

/-- Literal check for the `response_format` type value. -/
def checkRespFormat : Option String → Except SchemaError (Option String)
  | none => .ok none
  | some s =>
    if s = "text" ∨ s = "json_object" then .ok (some s)
    else .error (.validationError "response_format")

/-- `max_length=64` check on the `tools` list when present. -/
def checkMaxLen (field : String) (maxLen : Nat) :
    Option (List ToolDescr) → Except SchemaError (Option (List ToolDescr))
  | none => .ok none
  | some xs => if xs.length ≤ maxLen then .ok (some xs) else .error (.validationError field)

/-- `OpenAIChatCompletionParams` (extends `OpenAIParamsBase`). -/
structure OpenAIChatCompletionParams where
  model : Option String
  temperature : Option ℚ
  max_tokens : Option Int
  top_p : Option ℚ
  frequency_penalty : Option ℚ
  presence_penalty : Option ℚ
  stop : Option StopVal
  stream : Option Bool
  logit_bias : Option (List (String × ℚ))
  logprobs : Option Bool
  top_logprobs : Option Int
  n : Option Int
  response_format : Option String
  tools : Option (List ToolDescr)
  tool_choice : Option StrOrMap
  function_call : Option StrOrMap
  seed : Option Int
  user : Option String
  deriving DecidableEq, Repr

/-- `OpenAITextCompletionParams` (extends `OpenAIParamsBase`). -/
structure OpenAITextCompletionParams where
  model : Option String
  temperature : Option ℚ
  max_tokens : Option Int
  top_p : Option ℚ
  frequency_penalty : Option ℚ
  presence_penalty : Option ℚ
  stop : Option StopVal
  stream : Option Bool
  best_of : Option Int
  echo : Option Bool
  logprobs : Option Int
  suffix : Option String
  deriving DecidableEq, Repr

/-- `OpenAIChatCompletionParams(**raw)`: the declared defaults and bounds
of `OpenAIParamsBase` (`model='gpt-4o'`, `temperature=0` in `[0,2]`,
`top_p=1` in `[0,1]`, penalties `0` in `[-2,2]`, `stream=False`) plus the
chat-specific fields (`logprobs=False`, `top_logprobs` in `[0,20]`,
`n=1` in `[1,128]`, `tools` with `max_length=64`). -/
def OpenAIChatCompletionParams.validate (raw : RawParamsDict) :
    Except SchemaError OpenAIChatCompletionParams := do
  let temperature ← checkRangeQ "temperature" 0 2 (resolveField (some 0) raw.temperature)
  let top_p ← checkRangeQ "top_p" 0 1 (resolveField (some 1) raw.top_p)
  let frequency_penalty ← checkRangeQ "frequency_penalty" (-2) 2 (resolveField (some 0) raw.frequency_penalty)
  let presence_penalty ← checkRangeQ "presence_penalty" (-2) 2 (resolveField (some 0) raw.presence_penalty)
  let logprobs ← coerceBool "logprobs" (resolveField (some (.bool false)) raw.logprobs)
  let top_logprobs ← checkRangeI "top_logprobs" 0 20 (resolveField none raw.top_logprobs)
  let n ← checkRangeI "n" 1 128 (resolveField (some 1) raw.n)
  let response_format ← checkRespFormat (resolveField none raw.response_format)
  let tools ← checkMaxLen "tools" 64 (resolveField none raw.tools)
  .ok { model := resolveField (some "gpt-4o") raw.model
        temperature := temperature
        max_tokens := resolveField none raw.max_tokens
        top_p := top_p
        frequency_penalty := frequency_penalty
        presence_penalty := presence_penalty
        stop := resolveField none raw.stop
        stream := resolveField (some false) raw.stream
        logit_bias := resolveField none raw.logit_bias
        logprobs := logprobs
        top_logprobs := top_logprobs
        n := n
        response_format := response_format
        tools := tools
        tool_choice := resolveField none raw.tool_choice
        function_call := resolveField none raw.function_call
        seed := resolveField none raw.seed
        user := resolveField none raw.user }

/-- `OpenAITextCompletionParams(**raw)`: the `OpenAIParamsBase` defaults
and bounds plus the text-specific fields (`best_of >= 1`, `echo=False`,
`logprobs` in `[0,5]`). -/
def OpenAITextCompletionParams.validate (raw : RawParamsDict) :
    Except SchemaError OpenAITextCompletionParams := do
  let temperature ← checkRangeQ "temperature" 0 2 (resolveField (some 0) raw.temperature)
  let top_p ← checkRangeQ "top_p" 0 1 (resolveField (some 1) raw.top_p)
  let frequency_penalty ← checkRangeQ "frequency_penalty" (-2) 2 (resolveField (some 0) raw.frequency_penalty)
  let presence_penalty ← checkRangeQ "presence_penalty" (-2) 2 (resolveField (some 0) raw.presence_penalty)
  let best_of ← checkGeI "best_of" 1 (resolveField none raw.best_of)
  let logprobsInt ← coerceInt "logprobs" (resolveField none raw.logprobs)
  let logprobs ← checkRangeI "logprobs" 0 5 logprobsInt
  .ok { model := resolveField (some "gpt-4o") raw.model
        temperature := temperature
        max_tokens := resolveField none raw.max_tokens
        top_p := top_p
        frequency_penalty := frequency_penalty
        presence_penalty := presence_penalty
        stop := resolveField none raw.stop
        stream := resolveField (some false) raw.stream
        best_of := best_of
        echo := resolveField (some false) raw.echo
        logprobs := logprobs
        suffix := resolveField none raw.suffix }

/-- `OpenAIChatCompletionParams.model_dump()`: all of its own fields, only
its own fields. -/
def OpenAIChatCompletionParams.model_dump (p : OpenAIChatCompletionParams) : RawParamsDict :=
  { model := some p.model
    temperature := some p.temperature
    max_tokens := some p.max_tokens
    top_p := some p.top_p
    frequency_penalty := some p.frequency_penalty
    presence_penalty := some p.presence_penalty
    stop := some p.stop
    stream := some p.stream
    logit_bias := some p.logit_bias
    logprobs := some (p.logprobs.map .bool)
    top_logprobs := some p.top_logprobs
    n := some p.n
    response_format := some p.response_format
    tools := some p.tools
    tool_choice := some p.tool_choice
    function_call := some p.function_call
    seed := some p.seed
    user := some p.user }

/-- `OpenAITextCompletionParams.model_dump()`. -/
def OpenAITextCompletionParams.model_dump (p : OpenAITextCompletionParams) : RawParamsDict :=
  { model := some p.model
    temperature := some p.temperature
    max_tokens := some p.max_tokens
    top_p := some p.top_p
    frequency_penalty := some p.frequency_penalty
    presence_penalty := some p.presence_penalty
    stop := some p.stop
    stream := some p.stream
    best_of := some p.best_of
    echo := some p.echo
    logprobs := some (p.logprobs.map .int)
    suffix := some p.suffix }

/-! ### `PromptyModelConfig` -/

/-- The runtime value of `values['configuration']` inside the
`mode='before'` validator: a raw mapping, an already-constructed model
instance of one of the three variants, or Python `None` (also covering a
missing key, since `values.get` returns `None` for both). -/
inductive ConfigVal where
  | dict (d : RawModelConfigDict)
  | openai (c : OpenAIModelConfig)
  | azure (c : AzureOpenAIModelConfig)
  | hf (c : HFHubModelConfig)
  | pynone
  deriving DecidableEq, Repr

/-- The runtime value of `values['parameters']` inside the
`mode='before'` validator. -/
inductive ParamsVal where
  | dict (d : RawParamsDict)
  | chat (p : OpenAIChatCompletionParams)
  | text (p : OpenAITextCompletionParams)
  | pynone
  deriving DecidableEq, Repr

/-- Python truthiness of a configuration value: `None` is falsy, an empty
dict is falsy, a non-empty dict is truthy, a pydantic model instance is
always truthy. -/
def ConfigVal.truthy : ConfigVal → Bool
  | .dict d => !(d == {})
  | .openai _ => true
  | .azure _ => true
  | .hf _ => true
  | .pynone => false

/-- Python truthiness of a parameters value. -/
def ParamsVal.truthy : ParamsVal → Bool
  | .dict d => !(d == {})
  | .chat _ => true
  | .text _ => true
  | .pynone => false

/-- The `values` mapping handed to `PromptyModelConfig`'s validators. -/
structure PromptyValues where
  api : RawField String := none
  configuration : ConfigVal := .pynone
  parameters : ParamsVal := .pynone
  response : RawField String := none
  deriving DecidableEq, Repr

/-- First block of `sync_model_name`: coerce a raw configuration mapping
into the variant named by its `type` tag (`configuration.get("type")`); an
unknown or missing tag leaves the dict unchanged, a non-dict value passes
through. -/
def coerceConfig : ConfigVal → Except SchemaError ConfigVal
  | .dict d =>
    if d.type = some (some "openai") then
      (OpenAIModelConfig.validate d).map ConfigVal.openai
    else if d.type = some (some "azure_openai") then
      (AzureOpenAIModelConfig.validate d).map ConfigVal.azure
    else if d.type = some (some "huggingface") then
      (HFHubModelConfig.validate d).map ConfigVal.hf
    else .ok (ConfigVal.dict d)
  | c => .ok c

/-- Second block of `sync_model_name`: coerce a raw parameters mapping
into `OpenAIChatCompletionParams` when the (already coerced) configuration
is an `OpenAIModelConfig` or `AzureOpenAIModelConfig` instance; any other
combination passes through. -/
def coerceParams (configuration : ConfigVal) : ParamsVal → Except SchemaError ParamsVal
  | .dict d =>
    match configuration with
    | .openai _ => (OpenAIChatCompletionParams.validate d).map ParamsVal.chat
    | .azure _ => (OpenAIChatCompletionParams.validate d).map ParamsVal.chat
    | _ => .ok (ParamsVal.dict d)
  | p => .ok p

/-- Third block of `sync_model_name`: guarded by
`if configuration and parameters:`, execute
`parameters.model = configuration.name or configuration.azure_deployment`.
The right-hand side raises `AttributeError('name')` when the configuration
has no `name` attribute (the Azure and Hugging Face variants, and plain
dicts), and `AttributeError('azure_deployment')` when the OpenAI variant's
`name` is empty (falsy); the assignment itself raises
`AttributeError('model')` when `parameters` is not a model instance.
`syncAssignTruthy` is the guarded body, split by the possible runtime
types of the two values. -/
def syncAssignTruthy : ConfigVal → ParamsVal → Except SchemaError ParamsVal
  | .openai c, .chat p =>
    if c.name ≠ "" then .ok (ParamsVal.chat { p with model := some c.name })
    else .error (.attributeError "azure_deployment")
  | .openai c, .text p =>
    if c.name ≠ "" then .ok (ParamsVal.text { p with model := some c.name })
    else .error (.attributeError "azure_deployment")
  | .openai c, .dict _ =>
    if c.name ≠ "" then .error (.attributeError "model")
    else .error (.attributeError "azure_deployment")
  | .openai c, .pynone =>
    if c.name ≠ "" then .error (.attributeError "model")
    else .error (.attributeError "azure_deployment")
  | .azure _, _ => .error (.attributeError "name")
  | .hf _, _ => .error (.attributeError "name")
  | .dict _, _ => .error (.attributeError "name")
  | .pynone, _ => .error (.attributeError "name")

/-- The third block with its `if configuration and parameters:` guard:
when either value is falsy the assignment is skipped and `parameters` is
returned unchanged. -/
def syncAssign (configuration : ConfigVal) (parameters : ParamsVal) :
    Except SchemaError ParamsVal :=
  if configuration.truthy && parameters.truthy then
    syncAssignTruthy configuration parameters
  else .ok parameters

/-- `PromptyModelConfig.sync_model_name`, the `mode='before'` model
validator: the three blocks above in sequence, returning the updated
`values` mapping. -/
def sync_model_name (values : PromptyValues) : Except SchemaError PromptyValues := do
  let configuration ← coerceConfig values.configuration
  let parameters ← coerceParams configuration values.parameters
  let parameters ← syncAssign configuration parameters
  .ok { values with configuration := configuration, parameters := parameters }

/-- The discriminated union stored in `PromptyModelConfig.configuration`. -/
inductive ModelConfigUnion where
  | openai (c : OpenAIModelConfig)
  | azure (c : AzureOpenAIModelConfig)
  | hf (c : HFHubModelConfig)
  deriving DecidableEq, Repr

/-- The union stored in `PromptyModelConfig.parameters`. -/
inductive ParamsUnion where
  | text (p : OpenAITextCompletionParams)
  | chat (p : OpenAIChatCompletionParams)
  deriving DecidableEq, Repr

/-- Pydantic (smart-)union validation of a configuration dict against
`Union[OpenAIModelConfig, AzureOpenAIModelConfig, HFHubModelConfig]`: the
leftmost member that validates wins. -/
def validateConfigUnion (d : RawModelConfigDict) : Except SchemaError ModelConfigUnion :=
  match OpenAIModelConfig.validate d with
  | .ok c => .ok (.openai c)
  | .error _ =>
    match AzureOpenAIModelConfig.validate d with
    | .ok c => .ok (.azure c)
    | .error _ =>
      match HFHubModelConfig.validate d with
      | .ok c => .ok (.hf c)
      | .error e => .error e

/-- Pydantic (smart-)union validation of a parameters dict against
`Union[OpenAITextCompletionParams, OpenAIChatCompletionParams]`: the
leftmost member that validates wins. -/
def validateParamsUnion (d : RawParamsDict) : Except SchemaError ParamsUnion :=
  match OpenAITextCompletionParams.validate d with
  | .ok p => .ok (.text p)
  | .error _ =>
    match OpenAIChatCompletionParams.validate d with
    | .ok p => .ok (.chat p)
    | .error e => .error e

/-- The validated `PromptyModelConfig` record. `response` is a plain
string with default `"first"`: the `enum=` keyword on its `Field` is
non-constraining metadata in pydantic v2. -/
structure PromptyModelConfig where
  api : String
  configuration : ModelConfigUnion
  parameters : ParamsUnion
  response : String
  deriving DecidableEq, Repr

/-- `PromptyModelConfig(**values)`: runs the `sync_model_name` before-pass,
then the field validators — the `api` literal (`"chat"`/`"completion"`,
default `"chat"`), the configuration union (required: `None` fails via
`none_to_default` with no default), the parameters union (required), and
`response` (default `"first"`). -/
def PromptyModelConfig.validate (values : PromptyValues) : Except SchemaError PromptyModelConfig := do
  let v ← sync_model_name values
  let api ←
    (if resolveField (some "chat") v.api = some "chat" then .ok "chat"
     else if resolveField (some "chat") v.api = some "completion" then .ok "completion"
     else .error (.validationError "api") : Except SchemaError String)
  let configuration ←
    (match v.configuration with
     | .openai c => .ok (ModelConfigUnion.openai c)
     | .azure c => .ok (ModelConfigUnion.azure c)
     | .hf c => .ok (ModelConfigUnion.hf c)
     | .dict d => validateConfigUnion d
     | .pynone => .error (.validationError "configuration") : Except SchemaError ModelConfigUnion)
  let parameters ←
    (match v.parameters with
     | .chat p => .ok (ParamsUnion.chat p)
     | .text p => .ok (ParamsUnion.text p)
     | .dict d => validateParamsUnion d
     | .pynone => .error (.validationError "parameters") : Except SchemaError ParamsUnion)
  .ok { api := api
        configuration := configuration
        parameters := parameters
        response := (resolveField (some "first") v.response).getD "first" }

/-- `PromptyModelConfig.model_dump()`: nested models dump to nested
mappings. -/
def PromptyModelConfig.model_dump (r : PromptyModelConfig) : PromptyValues :=
  { api := some (some r.api)
    configuration := .dict (match r.configuration with
      | .openai c => c.model_dump
      | .azure c => c.model_dump
      | .hf c => c.model_dump)
    parameters := .dict (match r.parameters with
      | .chat p => p.model_dump
      | .text p => p.model_dump)
    response := some (some r.response) }

/-! ### Derived notions used to state the claims -/

deriving instance DecidableEq for Except

/-- Whether a raw input is a nested (non-str, non-dict) iterable. -/
def RawInput.isList : RawInput → Bool
  | .list _ => true
  | _ => false

mutual

/-- A raw input on which `normalize_chat_messages` raises no error: plain
text, a typed message object, a mapping with a recognized role, or an
iterable all of whose elements are themselves good. -/
def goodInput : RawInput → Bool
  | .str _ => true
  | .base _ => true
  | .dict d => validRole d.role
  | .list xs => goodList xs
  | .int _ => false

/-- All elements of the list are good inputs. -/
def goodList : List RawInput → Bool
  | [] => true
  | x :: xs => goodInput x && goodList xs

end

/-- The `model` field of whichever parameter-set variant is stored. -/
def ParamsUnion.modelName : ParamsUnion → Option String
  | .chat p => p.model
  | .text p => p.model

/-- The invariant every successfully constructed
`OpenAIChatCompletionParams` record satisfies: defaulted fields are
present and every declared numeric bound holds. -/
def ChatParamsInv (p : OpenAIChatCompletionParams) : Prop :=
  p.model.isSome = true ∧
  (∃ t, p.temperature = some t ∧ 0 ≤ t ∧ t ≤ 2) ∧
  (∃ t, p.top_p = some t ∧ 0 ≤ t ∧ t ≤ 1) ∧
  (∃ t, p.frequency_penalty = some t ∧ -2 ≤ t ∧ t ≤ 2) ∧
  (∃ t, p.presence_penalty = some t ∧ -2 ≤ t ∧ t ≤ 2) ∧
  p.stream.isSome = true ∧
  p.logprobs.isSome = true ∧
  (∀ k, p.top_logprobs = some k → 0 ≤ k ∧ k ≤ 20) ∧
  (∃ k, p.n = some k ∧ 1 ≤ k ∧ k ≤ 128) ∧
  (p.response_format = none ∨ p.response_format = some "text" ∨
    p.response_format = some "json_object") ∧
  (∀ ts, p.tools = some ts → ts.length ≤ 64)

/-- The invariant every successfully constructed
`OpenAITextCompletionParams` record satisfies. -/
def TextParamsInv (p : OpenAITextCompletionParams) : Prop :=
  p.model.isSome = true ∧
  (∃ t, p.temperature = some t ∧ 0 ≤ t ∧ t ≤ 2) ∧
  (∃ t, p.top_p = some t ∧ 0 ≤ t ∧ t ≤ 1) ∧
  (∃ t, p.frequency_penalty = some t ∧ -2 ≤ t ∧ t ≤ 2) ∧
  (∃ t, p.presence_penalty = some t ∧ -2 ≤ t ∧ t ≤ 2) ∧
  p.stream.isSome = true ∧
  p.echo.isSome = true ∧
  (∀ k, p.best_of = some k → 1 ≤ k) ∧
  (∀ k, p.logprobs = some k → 0 ≤ k ∧ k ≤ 5)

/-- The invariant every successfully constructed `OpenAIModelConfig`
satisfies: the defaulted `base_url` is present. -/
def OpenAICfgInv (c : OpenAIModelConfig) : Prop := c.base_url.isSome = true

/-- Any model instances handed to `PromptyModelConfig` as already
constructed values satisfy their class invariants (in Python they can
only have been produced by their validating constructors). -/
def PromptyInputInv (v : PromptyValues) : Prop :=
  (∀ c, v.configuration = .openai c → OpenAICfgInv c) ∧
  (∀ p, v.parameters = .chat p → ChatParamsInv p) ∧
  (∀ p, v.parameters = .text p → TextParamsInv p)

/-- The `OpenAIModelConfig` produced from the empty mapping (all declared
defaults). -/
def defaultOpenAICfg : OpenAIModelConfig :=
  { base_url := some "https://api.openai.com/v1", api_key := none,
    organization := none, project := none, name := "gpt-4o" }

/-- The `OpenAITextCompletionParams` produced from the empty mapping. -/
def defaultTextParams : OpenAITextCompletionParams :=
  { model := some "gpt-4o", temperature := some 0, max_tokens := none,
    top_p := some 1, frequency_penalty := some 0, presence_penalty := some 0,
    stop := none, stream := some false, best_of := none, echo := some false,
    logprobs := none, suffix := none }

/-- The `OpenAIChatCompletionParams` produced from the empty mapping. -/
def defaultChatParams : OpenAIChatCompletionParams :=
  { model := some "gpt-4o", temperature := some 0, max_tokens := none,
    top_p := some 1, frequency_penalty := some 0, presence_penalty := some 0,
    stop := none, stream := some false, logit_bias := none, logprobs := some false,
    top_logprobs := none, n := some 1, response_format := none, tools := none,
    tool_choice := none, function_call := none, seed := none, user := none }

/-- The documented example input: an OpenAI configuration mapping naming
the model `gpt-4o-mini`, with an empty raw parameters mapping. -/
def gpt4oMiniValues : PromptyValues :=
  { configuration := .dict { type := some (some "openai"),
                             name := some (some "gpt-4o-mini") },
    parameters := .dict {} }

/-- The configuration record produced from `gpt4oMiniValues`. -/
def gpt4oMiniCfg : OpenAIModelConfig :=
  { base_url := some "https://api.openai.com/v1", api_key := none,
    organization := none, project := none, name := "gpt-4o-mini" }

/-- The parameter record produced from `gpt4oMiniValues`. -/
def gpt4oMiniChat : OpenAIChatCompletionParams :=
  { model := some "gpt-4o-mini", temperature := some 0, max_tokens := none,
    top_p := some 1, frequency_penalty := some 0, presence_penalty := some 0,
    stop := none, stream := some false, logit_bias := none, logprobs := some false,
    top_logprobs := none, n := some 1, response_format := none, tools := none,
    tool_choice := none, function_call := none, seed := none, user := none }

/-- The `values` mapping produced by the before-validator on
`gpt4oMiniValues`. -/
def gpt4oMiniSynced : PromptyValues :=
  { configuration := .openai gpt4oMiniCfg,
    parameters := .chat gpt4oMiniChat }

/-- The validated record produced from `gpt4oMiniValues`. -/
def gpt4oMiniRecord : PromptyModelConfig :=
  { api := "chat", configuration := .openai gpt4oMiniCfg,
    parameters := .chat gpt4oMiniChat, response := "first" }

/-! ## Theorems -/

theorem exceptBind_ok {ε α β : Type} {x : Except ε α} {f : α → Except ε β} {b : β}
    (h : x >>= f = .ok b) : ∃ a, x = .ok a ∧ f a = .ok b := by
  cases x with
  | ok a => exact ⟨a, rfl, h⟩
  | error e => exact Except.noConfusion h

theorem resolveField_isSome {α : Type} (d : α) (rv : RawField α) :
    (resolveField (some d) rv).isSome = true := by
  cases rv with
  | none => rfl
  | some o => cases o <;> rfl

theorem checkRangeQ_ok {f : String} {lo hi : ℚ} {v x : Option ℚ}
    (h : checkRangeQ f lo hi v = .ok x) :
    x = v ∧ ∀ t, x = some t → lo ≤ t ∧ t ≤ hi := by
  cases v with
  | none =>
    simp only [checkRangeQ, Except.ok.injEq] at h
    subst h
    exact ⟨rfl, by simp⟩
  | some w =>
    simp only [checkRangeQ] at h
    split at h
    · rename_i hb
      simp only [Except.ok.injEq] at h
      subst h
      refine ⟨rfl, ?_⟩
      intro t ht
      injection ht with ht
      subst ht
      exact hb
    · exact Except.noConfusion h

theorem checkRangeI_ok {f : String} {lo hi : Int} {v x : Option Int}
    (h : checkRangeI f lo hi v = .ok x) :
    x = v ∧ ∀ t, x = some t → lo ≤ t ∧ t ≤ hi := by
  cases v with
  | none =>
    simp only [checkRangeI, Except.ok.injEq] at h
    subst h
    exact ⟨rfl, by simp⟩
  | some w =>
    simp only [checkRangeI] at h
    split at h
    · rename_i hb
      simp only [Except.ok.injEq] at h
      subst h
      refine ⟨rfl, ?_⟩
      intro t ht
      injection ht with ht
      subst ht
      exact hb
    · exact Except.noConfusion h

theorem checkGeI_ok {f : String} {lo : Int} {v x : Option Int}
    (h : checkGeI f lo v = .ok x) :
    x = v ∧ ∀ t, x = some t → lo ≤ t := by
  cases v with
  | none =>
    simp only [checkGeI, Except.ok.injEq] at h
    subst h
    exact ⟨rfl, by simp⟩
  | some w =>
    simp only [checkGeI] at h
    split at h
    · rename_i hb
      simp only [Except.ok.injEq] at h
      subst h
      refine ⟨rfl, ?_⟩
      intro t ht
      injection ht with ht
      subst ht
      exact hb
    · exact Except.noConfusion h

theorem coerceBool_ok_isSome {f : String} {v : Option LogProbsVal} {x : Option Bool}
    (h : coerceBool f v = .ok x) (hv : v.isSome = true) : x.isSome = true := by
  cases v with
  | none => simp at hv
  | some lv =>
    cases lv with
    | bool b =>
      simp only [coerceBool, Except.ok.injEq] at h
      subst h
      rfl
    | int i =>
      simp only [coerceBool] at h
      split at h
      · simp only [Except.ok.injEq] at h; subst h; rfl
      · split at h
        · simp only [Except.ok.injEq] at h; subst h; rfl
        · exact Except.noConfusion h

theorem coerceInt_ok {f : String} {v : Option LogProbsVal} {x : Option Int}
    (h : coerceInt f v = .ok x) :
    (v = none ∧ x = none) ∨ (∃ i, v = some (.int i) ∧ x = some i) := by
  cases v with
  | none =>
    simp only [coerceInt, Except.ok.injEq] at h
    subst h
    exact Or.inl ⟨rfl, rfl⟩
  | some lv =>
    cases lv with
    | bool b => exact Except.noConfusion h
    | int i =>
      simp only [coerceInt, Except.ok.injEq] at h
      subst h
      exact Or.inr ⟨i, rfl, rfl⟩

theorem checkRespFormat_ok {v x : Option String}
    (h : checkRespFormat v = .ok x) :
    x = v ∧ (x = none ∨ x = some "text" ∨ x = some "json_object") := by
  cases v with
  | none =>
    simp only [checkRespFormat, Except.ok.injEq] at h
    subst h
    exact ⟨rfl, Or.inl rfl⟩
  | some s =>
    simp only [checkRespFormat] at h
    split at h
    · rename_i hb
      simp only [Except.ok.injEq] at h
      subst h
      rcases hb with hb | hb <;> subst hb
      · exact ⟨rfl, Or.inr (Or.inl rfl)⟩
      · exact ⟨rfl, Or.inr (Or.inr rfl)⟩
    · exact Except.noConfusion h

theorem checkMaxLen_ok {f : String} {n : Nat} {v x : Option (List ToolDescr)}
    (h : checkMaxLen f n v = .ok x) :
    x = v ∧ ∀ l, x = some l → l.length ≤ n := by
  cases v with
  | none =>
    simp only [checkMaxLen, Except.ok.injEq] at h
    subst h
    exact ⟨rfl, by simp⟩
  | some l =>
    simp only [checkMaxLen] at h
    split at h
    · rename_i hb
      simp only [Except.ok.injEq] at h
      subst h
      refine ⟨rfl, ?_⟩
      intro l2 hl2
      injection hl2 with hl2
      subst hl2
      exact hb
    · exact Except.noConfusion h

theorem goodList_append (xs ys : List RawInput) :
    goodList (xs ++ ys) = (goodList xs && goodList ys) := by
  induction xs with
  | nil => simp [goodList]
  | cons x xs ih => simp [goodList, ih, Bool.and_assoc]

theorem normGo_flat_append (fs : List RawInput) :
    ∀ (q : List RawInput) (acc : List MsgDict), fs.all (fun x => !x.isList) = true →
    normGo (fs ++ q) acc =
      (match normGo fs acc with
       | .ok acc2 => normGo q acc2
       | .error e => .error e) := by
  induction fs with
  | nil => intro q acc _; simp [normGo]
  | cons x fs ih =>
    intro q acc h
    simp only [List.all_cons, Bool.and_eq_true] at h
    obtain ⟨hx, hfs⟩ := h
    cases x with
    | str s =>
      simp only [List.cons_append, normGo]
      exact ih q (acc ++ [{ role := some "user", content := some s }]) hfs
    | base m =>
      simp only [List.cons_append, normGo]
      exact ih q (acc ++ [m.model_dump]) hfs
    | dict d =>
      by_cases hr : validRole d.role
      · simp only [List.cons_append, normGo, hr, if_true]
        exact ih q (acc ++ [d]) hfs
      · simp [List.cons_append, normGo, hr]
    | list xs => simp [RawInput.isList] at hx
    | int n => simp only [List.cons_append, normGo]

/-- C1 counterexample: the FIFO expansion of the work queue does not
preserve left-to-right flattening order; on `["a", ["b", "c"], "d"]` the
normalizer yields the order a, d, b, c, not a, b, c, d. -/
theorem C1_counterexample :
    normalize_chat_messages (.list [.str "a", .list [.str "b", .str "c"], .str "d"]) ≠
      normalize_chat_messages (.list [.str "a", .str "b", .str "c", .str "d"]) := by
  have h1 : normalize_chat_messages (.list [.str "a", .list [.str "b", .str "c"], .str "d"]) =
      .ok [{ role := some "user", content := some "a" }, { role := some "user", content := some "d" },
           { role := some "user", content := some "b" }, { role := some "user", content := some "c" }] := by
    simp [normalize_chat_messages, normGo, validRole]
  have h2 : normalize_chat_messages (.list [.str "a", .str "b", .str "c", .str "d"]) =
      .ok [{ role := some "user", content := some "a" }, { role := some "user", content := some "b" },
           { role := some "user", content := some "c" }, { role := some "user", content := some "d" }] := by
    simp [normalize_chat_messages, normGo, validRole]
  rw [h1, h2]
  decide

/-- C1 (amended): FIFO expansion defers a nested sequence's elements to
the back of the queue: for a prefix `pre` of non-iterable elements,
`normalize_chat_messages(pre ++ [seq(mid)] ++ post)` equals
`normalize_chat_messages(pre ++ post ++ mid)`, and in-place flattening
`normalize_chat_messages(pre ++ [seq(mid)]) =
normalize_chat_messages(pre ++ mid)` holds only in the special case where
nothing follows the nested sequence. -/
theorem C1_fifo_deferral (pre mid post : List RawInput)
    (h : pre.all (fun x => !x.isList) = true) :
    normalize_chat_messages (.list (pre ++ [.list mid] ++ post)) =
      normalize_chat_messages (.list (pre ++ (post ++ mid))) ∧
    normalize_chat_messages (.list (pre ++ [.list mid])) =
      normalize_chat_messages (.list (pre ++ mid)) := by
  have key : ∀ post' : List RawInput,
      normalize_chat_messages (.list (pre ++ [.list mid] ++ post')) =
        normalize_chat_messages (.list (pre ++ (post' ++ mid))) := by
    intro post'
    show normGo [.list (pre ++ [.list mid] ++ post')] [] =
      normGo [.list (pre ++ (post' ++ mid))] []
    have e1 : normGo [.list (pre ++ [.list mid] ++ post')] [] =
        normGo (pre ++ ([.list mid] ++ post')) [] := by
      simp [normGo, List.append_assoc]
    have e2 : normGo [.list (pre ++ (post' ++ mid))] [] =
        normGo (pre ++ (post' ++ mid)) [] := by
      simp [normGo]
    rw [e1, e2, normGo_flat_append pre ([RawInput.list mid] ++ post') [] h,
        normGo_flat_append pre (post' ++ mid) [] h]
    cases normGo pre [] with
    | error e => rfl
    | ok acc2 => simp [normGo]
  refine ⟨key post, ?_⟩
  have := key []
  simpa using this

/-- C1 amended-claim witness at `pre = ["a"]`, `mid = ["b"]`,
`post = ["d"]`. -/
theorem C1_fifo_deferral_witness :
    ([RawInput.str "a"].all (fun x => !x.isList) = true) ∧
    (normalize_chat_messages (.list ([.str "a"] ++ [.list [.str "b"]] ++ [.str "d"])) =
       normalize_chat_messages (.list ([.str "a"] ++ ([.str "d"] ++ [.str "b"]))) ∧
     normalize_chat_messages (.list ([.str "a"] ++ [.list [.str "b"]])) =
       normalize_chat_messages (.list ([.str "a"] ++ [.str "b"]))) :=
  ⟨by decide, C1_fifo_deferral [.str "a"] [.str "b"] [.str "d"] (by decide)⟩

theorem normGoFuel_sufficient :
    ∀ (fuel : Nat) (q : List RawInput) (acc : List MsgDict),
      sizeL q ≤ fuel → normGoFuel fuel q acc = some (normGo q acc) := by
  intro fuel
  induction fuel with
  | zero =>
    intro q acc h
    cases q with
    | nil => simp [normGoFuel, normGo]
    | cons x q =>
      exfalso
      have := sizeR_pos x
      simp [sizeL] at h
      omega
  | succ fuel ih =>
    intro q acc h
    cases q with
    | nil => simp [normGoFuel, normGo]
    | cons msg queue =>
      cases msg with
      | str s =>
        simp only [normGoFuel, normGo]
        exact ih _ _ (by simp [sizeL, sizeR] at h; omega)
      | base m =>
        simp only [normGoFuel, normGo]
        exact ih _ _ (by simp [sizeL, sizeR] at h; omega)
      | dict d =>
        simp only [normGoFuel, normGo]
        by_cases hr : validRole d.role
        · simp only [hr, if_true]
          exact ih _ _ (by simp [sizeL, sizeR] at h; omega)
        · simp [hr]
      | list xs =>
        simp only [normGoFuel, normGo]
        refine ih _ _ ?_
        rw [sizeL_append]
        simp [sizeL, sizeR] at h
        omega
      | int n => simp [normGoFuel, normGo]

/-- C10: the worklist loop terminates on every finite input, and its
number of iterations is bounded by the size of the input structure: with
fuel equal to `sizeR m` the fuel-instrumented loop completes and computes
exactly `normalize_chat_messages m`. -/
theorem C10_termination_bound (m : RawInput) :
    normGoFuel (sizeR m) [m] [] = some (normalize_chat_messages m) :=
  normGoFuel_sufficient (sizeR m) [m] [] (by simp [sizeL])

theorem normGo_good_ok :
    ∀ (N : Nat) (q : List RawInput) (acc : List MsgDict),
      sizeL q ≤ N → goodList q = true → ∃ out, normGo q acc = .ok out := by
  intro N
  induction N with
  | zero =>
    intro q acc hsz h
    cases q with
    | nil => exact ⟨acc, by simp [normGo]⟩
    | cons x q =>
      exfalso
      have := sizeR_pos x
      simp [sizeL] at hsz
      omega
  | succ N ih =>
    intro q acc hsz h
    cases q with
    | nil => exact ⟨acc, by simp [normGo]⟩
    | cons msg queue =>
      simp only [goodList, Bool.and_eq_true] at h
      obtain ⟨hm, hq⟩ := h
      cases msg with
      | str s =>
        simpa [normGo] using
          ih queue (acc ++ [{ role := some "user", content := some s }])
            (by simp [sizeL, sizeR] at hsz ⊢; omega) hq
      | base m =>
        simpa [normGo] using
          ih queue (acc ++ [m.model_dump]) (by simp [sizeL, sizeR] at hsz ⊢; omega) hq
      | dict d =>
        have hr : validRole d.role = true := by simpa [goodInput] using hm
        simpa [normGo, hr] using
          ih queue (acc ++ [d]) (by simp [sizeL, sizeR] at hsz ⊢; omega) hq
      | list xs =>
        have hxs : goodList xs = true := by simpa [goodInput] using hm
        have hall : goodList (queue ++ xs) = true := by
          rw [goodList_append, hq, hxs]; rfl
        simpa [normGo] using
          ih (queue ++ xs) acc
            (by rw [sizeL_append]; simp [sizeL, sizeR] at hsz; omega) hall
      | int n => simp [goodInput] at hm

/-- C4: `normalize_chat_messages` fails with the invalid-role error naming
the offending role value on every mapping whose role is not one of user,
assistant, tool or system (a mapping with no role key has role `None`);
fails with the unsupported-format error naming the runtime type on every
non-str, non-message, non-dict, non-iterable value (such as the integer
42, of type "int"); and succeeds on every input all of whose (transitive)
elements are good. -/
theorem C4_error_behavior :
    (∀ d : MsgDict, validRole d.role = false →
      normalize_chat_messages (.dict d) = .error (.invalidRole d.role)) ∧
    (∀ n : Int, normalize_chat_messages (.int n) =
      .error (.unsupportedFormat ((RawInput.int n).typeName))) ∧
    ((RawInput.int 42).typeName = "int") ∧
    (∀ m : RawInput, goodInput m = true →
      ∃ out, normalize_chat_messages m = .ok out) := by
  refine ⟨?_, ?_, rfl, ?_⟩
  · intro d hd
    simp [normalize_chat_messages, normGo, hd]
  · intro n
    simp [normalize_chat_messages, normGo]
  · intro m hm
    have hl : goodList [m] = true := by simp [goodList, hm]
    exact normGo_good_ok (sizeL [m]) [m] [] le_rfl hl

/-- C4 witness: an unrecognized role "bogus", a mapping with no role key,
the integer 42, and a successful plain-text input. -/
theorem C4_error_behavior_witness :
    (validRole (some "bogus") = false ∧
     normalize_chat_messages (.dict { role := some "bogus", content := some "x" }) =
       .error (.invalidRole (some "bogus"))) ∧
    (validRole (none : Option String) = false ∧
     normalize_chat_messages (.dict { role := none, content := some "x" }) =
       .error (.invalidRole none)) ∧
    (normalize_chat_messages (.int 42) = .error (.unsupportedFormat "int")) ∧
    (goodInput (.str "hi") = true ∧
     ∃ out, normalize_chat_messages (.str "hi") = .ok out) :=
  ⟨⟨by decide, C4_error_behavior.1 { role := some "bogus", content := some "x" } (by decide)⟩,
   ⟨by decide, C4_error_behavior.1 { role := none, content := some "x" } (by decide)⟩,
   C4_error_behavior.2.1 42,
   ⟨by decide, C4_error_behavior.2.2.2 (.str "hi") (by decide)⟩⟩

theorem dictGet_map_set (m : List (String × PVal)) (k : String) (v : PVal)
    (hc : m.any (fun p => p.1 = k) = true) :
    dictGet (m.map (fun p => if p.1 = k then (k, v) else p)) k = some v := by
  induction m with
  | nil => simp at hc
  | cons q m ih =>
    by_cases hq : q.1 = k
    · simp [dictGet, hq]
    · simp only [List.any_cons, Bool.or_eq_true, decide_eq_true_eq] at hc
      rcases hc with hc | hc
      · exact absurd hc hq
      · simpa [dictGet, hq] using ih hc

theorem dictGet_append_new (m : List (String × PVal)) (k : String) (v : PVal)
    (hc : m.any (fun p => p.1 = k) = false) :
    dictGet (m ++ [(k, v)]) k = some v := by
  induction m with
  | nil => simp [dictGet]
  | cons q m ih =>
    simp only [List.any_cons, Bool.or_eq_false_iff, decide_eq_false_iff_not] at hc
    simpa [dictGet, hc.1] using ih (by simpa using hc.2)

theorem dictGet_dictSet (m : List (String × PVal)) (k : String) (v : PVal) :
    dictGet (dictSet m k v) k = some v := by
  unfold dictSet
  cases hc : m.any (fun p => p.1 = k) with
  | true => simpa [hc] using dictGet_map_set m k v hc
  | false => simpa [hc] using dictGet_append_new m k v hc

/-- C7: with a non-empty tools list and no response model,
`process_params` replaces the `tools` entry of the parameter mapping in
place with the per-tool formatted list, one collaborator call per tool in
the original order, so looking up `tools` afterwards yields exactly that
list; with an empty or absent tools list the mapping is returned
unchanged (no tools entry is written). -/
theorem C7_process_params_tools :
    (∀ (format_tool : ToolDescr → String → PVal)
       (generate_request : String → String → List (String × PVal) → List (String × PVal))
       (params : List (String × PVal)) (provider : String) (ts : List ToolDescr),
       ts ≠ [] →
       process_params format_tool generate_request params provider (some ts) none =
         dictSet params "tools" (.plist (ts.map (fun t => format_tool t provider))) ∧
       dictGet (process_params format_tool generate_request params provider (some ts) none)
           "tools" =
         some (.plist (ts.map (fun t => format_tool t provider)))) ∧
    (∀ format_tool generate_request params provider,
       process_params format_tool generate_request params provider (some []) none = params ∧
       process_params format_tool generate_request params provider none none = params) := by
  constructor
  · intro ft gr params provider ts hts
    cases ts with
    | nil => exact absurd rfl hts
    | cons t ts =>
      refine ⟨rfl, ?_⟩
      exact dictGet_dictSet params "tools" (.plist ((t :: ts).map (fun tool => ft tool provider)))
  · intro ft gr params provider
    exact ⟨rfl, rfl⟩

/-- C7 witness at a two-element tools list over an empty parameter
mapping. -/
theorem C7_process_params_tools_witness :
    ([ToolDescr.mk [("name", "t1")], ToolDescr.mk [("name", "t2")]] ≠ ([] : List ToolDescr)) ∧
    (process_params (fun _ p => .prim p) (fun _ _ ps => ps) [] "openai"
         (some [ToolDescr.mk [("name", "t1")], ToolDescr.mk [("name", "t2")]]) none =
       dictSet [] "tools"
         (.plist ([ToolDescr.mk [("name", "t1")], ToolDescr.mk [("name", "t2")]].map
           (fun t => (fun (_ : ToolDescr) (p : String) => PVal.prim p) t "openai"))) ∧
     dictGet
         (process_params (fun _ p => .prim p) (fun _ _ ps => ps) [] "openai"
           (some [ToolDescr.mk [("name", "t1")], ToolDescr.mk [("name", "t2")]]) none)
         "tools" =
       some
         (.plist ([ToolDescr.mk [("name", "t1")], ToolDescr.mk [("name", "t2")]].map
           (fun t => (fun (_ : ToolDescr) (p : String) => PVal.prim p) t "openai")))) :=
  ⟨by simp,
   C7_process_params_tools.1 (fun _ p => .prim p) (fun _ _ ps => ps) [] "openai"
     [ToolDescr.mk [("name", "t1")], ToolDescr.mk [("name", "t2")]] (by simp)⟩

/-- C6: a raw field given as the absent sentinel (key missing or key
present with value `None`) is replaced by the field's declared default:
for `OpenAIClientConfig`, `base_url` becomes
`"https://api.openai.com/v1"` and the other three fields take their
declared default `None`; in particular the empty mapping (no `api_key`,
no `base_url`) yields the default `base_url`. -/
theorem C6_sentinel_defaulting :
    (∀ raw : RawOpenAIClientConfig,
       raw.base_url = none ∨ raw.base_url = some none →
       (OpenAIClientConfig.validate raw).base_url = some "https://api.openai.com/v1") ∧
    (∀ raw : RawOpenAIClientConfig, raw.api_key = some none →
       (OpenAIClientConfig.validate raw).api_key = none) ∧
    (∀ raw : RawOpenAIClientConfig, raw.organization = some none →
       (OpenAIClientConfig.validate raw).organization = none) ∧
    (∀ raw : RawOpenAIClientConfig, raw.project = some none →
       (OpenAIClientConfig.validate raw).project = none) ∧
    (OpenAIClientConfig.validate {}).base_url = some "https://api.openai.com/v1" := by
  refine ⟨?_, ?_, ?_, ?_, rfl⟩
  · rintro raw (h | h) <;> simp [OpenAIClientConfig.validate, h, resolveField]
  · intro raw h; simp [OpenAIClientConfig.validate, h, resolveField]
  · intro raw h; simp [OpenAIClientConfig.validate, h, resolveField]
  · intro raw h; simp [OpenAIClientConfig.validate, h, resolveField]

/-- C6 witness: `base_url` explicitly `None` together with an absent
`api_key`, and the all-absent mapping. -/
theorem C6_sentinel_defaulting_witness :
    (({ base_url := some none : RawOpenAIClientConfig }).base_url = none ∨
      ({ base_url := some none : RawOpenAIClientConfig }).base_url = some none) ∧
    (OpenAIClientConfig.validate { base_url := some none }).base_url =
      some "https://api.openai.com/v1" :=
  ⟨Or.inr rfl, C6_sentinel_defaulting.1 { base_url := some none } (Or.inr rfl)⟩

theorem chatValidate_inv {raw : RawParamsDict} {p : OpenAIChatCompletionParams}
    (h : OpenAIChatCompletionParams.validate raw = .ok p) : ChatParamsInv p := by
  unfold OpenAIChatCompletionParams.validate at h
  obtain ⟨temp, h1, h⟩ := exceptBind_ok h
  obtain ⟨topp, h2, h⟩ := exceptBind_ok h
  obtain ⟨fp, h3, h⟩ := exceptBind_ok h
  obtain ⟨pp, h4, h⟩ := exceptBind_ok h
  obtain ⟨lp, h5, h⟩ := exceptBind_ok h
  obtain ⟨tlp, h6, h⟩ := exceptBind_ok h
  obtain ⟨nn, h7, h⟩ := exceptBind_ok h
  obtain ⟨rf, h8, h⟩ := exceptBind_ok h
  obtain ⟨tls, h9, h⟩ := exceptBind_ok h
  simp only [Except.ok.injEq] at h
  subst h
  obtain ⟨e1, b1⟩ := checkRangeQ_ok h1
  obtain ⟨e2, b2⟩ := checkRangeQ_ok h2
  obtain ⟨e3, b3⟩ := checkRangeQ_ok h3
  obtain ⟨e4, b4⟩ := checkRangeQ_ok h4
  obtain ⟨e6, b6⟩ := checkRangeI_ok h6
  obtain ⟨e7, b7⟩ := checkRangeI_ok h7
  obtain ⟨e8, b8⟩ := checkRespFormat_ok h8
  obtain ⟨e9, b9⟩ := checkMaxLen_ok h9
  refine ⟨resolveField_isSome _ _, ?_, ?_, ?_, ?_, resolveField_isSome _ _, ?_, b6, ?_, b8, b9⟩
  · obtain ⟨t, ht⟩ := Option.isSome_iff_exists.mp (e1 ▸ resolveField_isSome 0 raw.temperature)
    exact ⟨t, ht, b1 t ht⟩
  · obtain ⟨t, ht⟩ := Option.isSome_iff_exists.mp (e2 ▸ resolveField_isSome 1 raw.top_p)
    exact ⟨t, ht, b2 t ht⟩
  · obtain ⟨t, ht⟩ := Option.isSome_iff_exists.mp (e3 ▸ resolveField_isSome 0 raw.frequency_penalty)
    exact ⟨t, ht, b3 t ht⟩
  · obtain ⟨t, ht⟩ := Option.isSome_iff_exists.mp (e4 ▸ resolveField_isSome 0 raw.presence_penalty)
    exact ⟨t, ht, b4 t ht⟩
  · exact coerceBool_ok_isSome h5 (resolveField_isSome (LogProbsVal.bool false) raw.logprobs)
  · obtain ⟨k, hk⟩ := Option.isSome_iff_exists.mp (e7 ▸ resolveField_isSome 1 raw.n)
    exact ⟨k, hk, b7 k hk⟩

theorem textValidate_inv {raw : RawParamsDict} {p : OpenAITextCompletionParams}
    (h : OpenAITextCompletionParams.validate raw = .ok p) : TextParamsInv p := by
  unfold OpenAITextCompletionParams.validate at h
  obtain ⟨temp, h1, h⟩ := exceptBind_ok h
  obtain ⟨topp, h2, h⟩ := exceptBind_ok h
  obtain ⟨fp, h3, h⟩ := exceptBind_ok h
  obtain ⟨pp, h4, h⟩ := exceptBind_ok h
  obtain ⟨bo, h5, h⟩ := exceptBind_ok h
  obtain ⟨lpi, h6, h⟩ := exceptBind_ok h
  obtain ⟨lp, h7, h⟩ := exceptBind_ok h
  simp only [Except.ok.injEq] at h
  subst h
  obtain ⟨e1, b1⟩ := checkRangeQ_ok h1
  obtain ⟨e2, b2⟩ := checkRangeQ_ok h2
  obtain ⟨e3, b3⟩ := checkRangeQ_ok h3
  obtain ⟨e4, b4⟩ := checkRangeQ_ok h4
  obtain ⟨e5, b5⟩ := checkGeI_ok h5
  obtain ⟨e7, b7⟩ := checkRangeI_ok h7
  refine ⟨resolveField_isSome _ _, ?_, ?_, ?_, ?_, resolveField_isSome _ _,
         resolveField_isSome _ _, b5, b7⟩
  · obtain ⟨t, ht⟩ := Option.isSome_iff_exists.mp (e1 ▸ resolveField_isSome 0 raw.temperature)
    exact ⟨t, ht, b1 t ht⟩
  · obtain ⟨t, ht⟩ := Option.isSome_iff_exists.mp (e2 ▸ resolveField_isSome 1 raw.top_p)
    exact ⟨t, ht, b2 t ht⟩
  · obtain ⟨t, ht⟩ := Option.isSome_iff_exists.mp (e3 ▸ resolveField_isSome 0 raw.frequency_penalty)
    exact ⟨t, ht, b3 t ht⟩
  · obtain ⟨t, ht⟩ := Option.isSome_iff_exists.mp (e4 ▸ resolveField_isSome 0 raw.presence_penalty)
    exact ⟨t, ht, b4 t ht⟩

/-- C5: every successfully constructed parameter-set record satisfies the
declared numeric bounds (temperature in `[0,2]`, `top_p` in `[0,1]`,
penalties in `[-2,2]`, chat `n` in `[1,128]`, `top_logprobs` in `[0,20]`
when present), and construction fails with the schema validation error on
a violated bound: chat `n=129` fails naming the field `n`, while `n=1`
succeeds. -/
theorem C5_numeric_bounds :
    (∀ (raw : RawParamsDict) (p : OpenAIChatCompletionParams),
       OpenAIChatCompletionParams.validate raw = .ok p →
       (∀ t, p.temperature = some t → 0 ≤ t ∧ t ≤ 2) ∧
       (∀ t, p.top_p = some t → 0 ≤ t ∧ t ≤ 1) ∧
       (∀ t, p.frequency_penalty = some t → -2 ≤ t ∧ t ≤ 2) ∧
       (∀ t, p.presence_penalty = some t → -2 ≤ t ∧ t ≤ 2) ∧
       (∀ k, p.n = some k → 1 ≤ k ∧ k ≤ 128) ∧
       (∀ k, p.top_logprobs = some k → 0 ≤ k ∧ k ≤ 20)) ∧
    (∀ (raw : RawParamsDict) (p : OpenAITextCompletionParams),
       OpenAITextCompletionParams.validate raw = .ok p →
       (∀ t, p.temperature = some t → 0 ≤ t ∧ t ≤ 2) ∧
       (∀ t, p.top_p = some t → 0 ≤ t ∧ t ≤ 1) ∧
       (∀ t, p.frequency_penalty = some t → -2 ≤ t ∧ t ≤ 2) ∧
       (∀ t, p.presence_penalty = some t → -2 ≤ t ∧ t ≤ 2)) ∧
    (OpenAIChatCompletionParams.validate { n := some (some 129) } =
       .error (.validationError "n")) ∧
    (∃ p, OpenAIChatCompletionParams.validate { n := some (some 1) } = .ok p ∧
       p.n = some 1) := by
  refine ⟨?_, ?_, rfl, ⟨_, rfl, rfl⟩⟩
  · intro raw p h
    obtain ⟨_, ⟨t1, ht1, hb1⟩, ⟨t2, ht2, hb2⟩, ⟨t3, ht3, hb3⟩, ⟨t4, ht4, hb4⟩, _, _,
      htlp, ⟨k, hk, hkb⟩, _, _⟩ := chatValidate_inv h
    refine ⟨?_, ?_, ?_, ?_, ?_, htlp⟩
    · intro t ht; rw [ht1] at ht; injection ht with ht; subst ht; exact hb1
    · intro t ht; rw [ht2] at ht; injection ht with ht; subst ht; exact hb2
    · intro t ht; rw [ht3] at ht; injection ht with ht; subst ht; exact hb3
    · intro t ht; rw [ht4] at ht; injection ht with ht; subst ht; exact hb4
    · intro k2 hk2; rw [hk] at hk2; injection hk2 with hk2; subst hk2; exact hkb
  · intro raw p h
    obtain ⟨_, ⟨t1, ht1, hb1⟩, ⟨t2, ht2, hb2⟩, ⟨t3, ht3, hb3⟩, ⟨t4, ht4, hb4⟩, _, _, _, _⟩ :=
      textValidate_inv h
    refine ⟨?_, ?_, ?_, ?_⟩
    · intro t ht; rw [ht1] at ht; injection ht with ht; subst ht; exact hb1
    · intro t ht; rw [ht2] at ht; injection ht with ht; subst ht; exact hb2
    · intro t ht; rw [ht3] at ht; injection ht with ht; subst ht; exact hb3
    · intro t ht; rw [ht4] at ht; injection ht with ht; subst ht; exact hb4

/-- C5 witness: the defaults-only chat mapping constructs successfully
and its stored `n = 1` satisfies the claimed bounds via the theorem. -/
theorem C5_numeric_bounds_witness :
    (OpenAIChatCompletionParams.validate ({} : RawParamsDict) =
       .ok { model := some "gpt-4o", temperature := some 0, max_tokens := none,
             top_p := some 1, frequency_penalty := some 0, presence_penalty := some 0,
             stop := none, stream := some false, logit_bias := none, logprobs := some false,
             top_logprobs := none, n := some 1, response_format := none, tools := none,
             tool_choice := none, function_call := none, seed := none, user := none }) ∧
    (1 ≤ (1 : Int) ∧ (1 : Int) ≤ 128) :=
  ⟨rfl,
   (C5_numeric_bounds.1 {} _ rfl).2.2.2.2.1 1 rfl⟩

/-- C9: constructing `OpenAIChatCompletionParams` with a tools list of at
most 64 entries succeeds and stores the list unchanged, while a longer
tools list fails with the schema validation error naming `tools` — a
limit the spec does not state. -/
theorem C9_tools_max_length (ts : List ToolDescr) :
    (ts.length ≤ 64 →
      ∃ p, OpenAIChatCompletionParams.validate { tools := some (some ts) } = .ok p ∧
        p.tools = some ts) ∧
    (64 < ts.length →
      OpenAIChatCompletionParams.validate { tools := some (some ts) } =
        .error (.validationError "tools")) := by
  have hred : OpenAIChatCompletionParams.validate { tools := some (some ts) } =
      (checkMaxLen "tools" 64 (some ts) >>= fun tools => .ok
        { model := some "gpt-4o", temperature := some 0, max_tokens := none,
          top_p := some 1, frequency_penalty := some 0, presence_penalty := some 0,
          stop := none, stream := some false, logit_bias := none, logprobs := some false,
          top_logprobs := none, n := some 1, response_format := none, tools := tools,
          tool_choice := none, function_call := none, seed := none, user := none }) := rfl
  constructor
  · intro hle
    refine ⟨{ model := some "gpt-4o", temperature := some 0, max_tokens := none,
              top_p := some 1, frequency_penalty := some 0, presence_penalty := some 0,
              stop := none, stream := some false, logit_bias := none, logprobs := some false,
              top_logprobs := none, n := some 1, response_format := none, tools := some ts,
              tool_choice := none, function_call := none, seed := none, user := none }, ?_, rfl⟩
    rw [hred]
    simp only [checkMaxLen]
    rw [if_pos hle]
    rfl
  · intro hgt
    rw [hred]
    simp only [checkMaxLen]
    rw [if_neg (by omega)]
    rfl

/-- C9 witness: a 65-element tools list fails, a singleton succeeds. -/
theorem C9_tools_max_length_witness :
    (64 < (List.replicate 65 (ToolDescr.mk [])).length ∧
     OpenAIChatCompletionParams.validate
         { tools := some (some (List.replicate 65 (ToolDescr.mk []))) } =
       .error (.validationError "tools")) ∧
    (([ToolDescr.mk []].length ≤ 64) ∧
     ∃ p, OpenAIChatCompletionParams.validate { tools := some (some [ToolDescr.mk []]) } =
         .ok p ∧ p.tools = some [ToolDescr.mk []]) :=
  ⟨⟨by decide, (C9_tools_max_length (List.replicate 65 (ToolDescr.mk []))).2 (by decide)⟩,
   ⟨by decide, (C9_tools_max_length [ToolDescr.mk []]).1 (by decide)⟩⟩

theorem syncAssign_ok {cv : ConfigVal} {pv pv' : ParamsVal}
    (h : syncAssign cv pv = .ok pv') :
    ((cv.truthy && pv.truthy) = false ∧ pv' = pv) ∨
    (∃ c : OpenAIModelConfig, cv = .openai c ∧ c.name ≠ "" ∧
      ((∃ p, pv = .chat p ∧ pv' = .chat { p with model := some c.name }) ∨
       (∃ p, pv = .text p ∧ pv' = .text { p with model := some c.name }))) := by
  unfold syncAssign at h
  split at h
  · rename_i hc
    cases cv with
    | openai c =>
      cases pv with
      | chat p =>
        simp only [syncAssignTruthy] at h
        split at h
        · rename_i hn
          simp only [Except.ok.injEq] at h
          exact Or.inr ⟨c, rfl, hn, Or.inl ⟨p, rfl, h.symm⟩⟩
        · exact Except.noConfusion h
      | text p =>
        simp only [syncAssignTruthy] at h
        split at h
        · rename_i hn
          simp only [Except.ok.injEq] at h
          exact Or.inr ⟨c, rfl, hn, Or.inr ⟨p, rfl, h.symm⟩⟩
        · exact Except.noConfusion h
      | dict d =>
        simp only [syncAssignTruthy] at h
        split at h <;> exact Except.noConfusion h
      | pynone =>
        simp only [syncAssignTruthy] at h
        split at h <;> exact Except.noConfusion h
    | azure c => cases pv <;> exact Except.noConfusion h
    | hf c => cases pv <;> exact Except.noConfusion h
    | dict d => cases pv <;> exact Except.noConfusion h
    | pynone => cases pv <;> exact Except.noConfusion h
  · rename_i hc
    simp only [Except.ok.injEq] at h
    exact Or.inl ⟨by simpa using hc, h.symm⟩

theorem sync_model_name_ok {v w : PromptyValues}
    (h : sync_model_name v = .ok w) :
    ∃ cfg pv2, coerceConfig v.configuration = .ok cfg ∧
      coerceParams cfg v.parameters = .ok pv2 ∧
      syncAssign cfg pv2 = .ok w.parameters ∧
      w.configuration = cfg ∧ w.api = v.api ∧ w.response = v.response := by
  unfold sync_model_name at h
  obtain ⟨cfg, h1, h⟩ := exceptBind_ok h
  obtain ⟨pv2, h2, h⟩ := exceptBind_ok h
  obtain ⟨pv3, h3, h⟩ := exceptBind_ok h
  simp only [Except.ok.injEq] at h
  subst h
  exact ⟨cfg, pv2, h1, h2, h3, rfl, rfl, rfl⟩

/-- C2: whenever `PromptyModelConfig`'s before-validator completes with
both the configuration and parameters truthy (the guard of the sync
assignment), the configuration is the OpenAI variant with a non-empty
model name and the parameter set's `model` field equals that name (the
Azure deployment-name fallback can never complete: the Azure variant has
no `name` attribute); in particular the documented example with
`configuration.name="gpt-4o-mini"` and `parameters.model` unset yields
`parameters.model == "gpt-4o-mini"` after validation. -/
theorem C2_model_name_sync :
    (∀ (v w : PromptyValues), sync_model_name v = .ok w →
       w.configuration.truthy = true → w.parameters.truthy = true →
       ∃ c : OpenAIModelConfig, w.configuration = .openai c ∧ c.name ≠ "" ∧
         ((∃ p, w.parameters = ParamsVal.chat p ∧ p.model = some c.name) ∨
          (∃ p, w.parameters = ParamsVal.text p ∧ p.model = some c.name))) ∧
    (∃ r, PromptyModelConfig.validate gpt4oMiniValues = .ok r ∧
      r.parameters.modelName = some "gpt-4o-mini") := by
  constructor
  · intro v w h hct hpt
    obtain ⟨cfg, pv2, h1, h2, h3, hcfg, _, _⟩ := sync_model_name_ok h
    rcases syncAssign_ok h3 with ⟨hfalse, hid⟩ | ⟨c, hc, hn, hcase⟩
    · exfalso
      rw [hcfg] at hct
      rw [hid] at hpt
      rw [hct, hpt] at hfalse
      exact Bool.noConfusion hfalse
    · refine ⟨c, by rw [hcfg, hc], hn, ?_⟩
      rcases hcase with ⟨p, _, hp'⟩ | ⟨p, _, hp'⟩
      · exact Or.inl ⟨{ p with model := some c.name }, hp', rfl⟩
      · exact Or.inr ⟨{ p with model := some c.name }, hp', rfl⟩
  · exact ⟨_, rfl, rfl⟩

/-- C2 witness: the documented example, with the sync-guard hypotheses
discharged on the computed intermediate values. -/
theorem C2_model_name_sync_witness :
    (sync_model_name gpt4oMiniValues = .ok gpt4oMiniSynced ∧
     gpt4oMiniSynced.configuration.truthy = true ∧
     gpt4oMiniSynced.parameters.truthy = true) ∧
    (∃ c : OpenAIModelConfig,
      gpt4oMiniSynced.configuration = .openai c ∧ c.name ≠ "" ∧
        ((∃ p, gpt4oMiniSynced.parameters = ParamsVal.chat p ∧ p.model = some c.name) ∨
         (∃ p, gpt4oMiniSynced.parameters = ParamsVal.text p ∧ p.model = some c.name))) :=
  ⟨⟨rfl, rfl, rfl⟩,
   C2_model_name_sync.1 gpt4oMiniValues gpt4oMiniSynced rfl rfl rfl⟩

/-- C3: inside the before-validator, a raw parameters mapping is coerced
into the chat-completion variant exactly when the configuration resolved
to the OpenAI or Azure OpenAI variant, and the pass never produces the
text-completion variant from a mapping: a text-variant output can only be
a text-variant input passed through. -/
theorem C3_chat_coercion :
    (∀ (cv : ConfigVal) (d : RawParamsDict),
       ((∃ c, cv = ConfigVal.openai c) ∨ (∃ c, cv = ConfigVal.azure c)) →
       coerceParams cv (.dict d) =
         (OpenAIChatCompletionParams.validate d).map ParamsVal.chat) ∧
    (∀ (cv : ConfigVal) (pv pv' : ParamsVal), coerceParams cv pv = .ok pv' →
       ∀ q, pv' = ParamsVal.text q → pv = ParamsVal.text q) := by
  constructor
  · rintro cv d (⟨c, rfl⟩ | ⟨c, rfl⟩) <;> rfl
  · intro cv pv pv' h q hq
    subst hq
    cases pv with
    | dict d =>
      cases cv with
      | openai c =>
        simp only [coerceParams] at h
        cases hv : OpenAIChatCompletionParams.validate d with
        | ok p => rw [hv] at h; simp only [Except.map, Except.ok.injEq] at h; exact ParamsVal.noConfusion h
        | error e => rw [hv] at h; exact Except.noConfusion h
      | azure c =>
        simp only [coerceParams] at h
        cases hv : OpenAIChatCompletionParams.validate d with
        | ok p => rw [hv] at h; simp only [Except.map, Except.ok.injEq] at h; exact ParamsVal.noConfusion h
        | error e => rw [hv] at h; exact Except.noConfusion h
      | hf c => simp only [coerceParams, Except.ok.injEq] at h; exact ParamsVal.noConfusion h
      | dict d2 => simp only [coerceParams, Except.ok.injEq] at h; exact ParamsVal.noConfusion h
      | pynone => simp only [coerceParams, Except.ok.injEq] at h; exact ParamsVal.noConfusion h
    | chat p => simp only [coerceParams, Except.ok.injEq] at h; exact ParamsVal.noConfusion h
    | text p => simp only [coerceParams, Except.ok.injEq] at h; rw [h]
    | pynone => simp only [coerceParams, Except.ok.injEq] at h; exact ParamsVal.noConfusion h

theorem resolveField_dump {α : Type} (d : Option α) (rv : RawField α) :
    resolveField d (some (resolveField d rv)) = resolveField d rv := by
  cases rv with
  | none => cases d <;> rfl
  | some o =>
    cases o with
    | none => cases d <;> rfl
    | some v => rfl

theorem resolveField_none_dump {α : Type} (x : Option α) :
    resolveField none (some x) = x := by
  cases x <;> rfl

theorem resolveField_some_some {α : Type} (d : Option α) (v : α) :
    resolveField d (some (some v)) = some v := rfl

theorem optionMap_some {α β : Type} (f : α → β) (a : α) :
    Option.map f (some a) = some (f a) := rfl

theorem checkRangeQ_pos {f : String} {lo hi t : ℚ} (h1 : lo ≤ t) (h2 : t ≤ hi) :
    checkRangeQ f lo hi (some t) = .ok (some t) := by
  simp [checkRangeQ, h1, h2]

theorem checkRangeI_pos {f : String} {lo hi t : Int} (h1 : lo ≤ t) (h2 : t ≤ hi) :
    checkRangeI f lo hi (some t) = .ok (some t) := by
  simp [checkRangeI, h1, h2]

theorem checkGeI_pos {f : String} {lo t : Int} (h1 : lo ≤ t) :
    checkGeI f lo (some t) = .ok (some t) := by
  simp [checkGeI, h1]

theorem checkMaxLen_pos {f : String} {n : Nat} {l : List ToolDescr} (h : l.length ≤ n) :
    checkMaxLen f n (some l) = .ok (some l) := by
  simp [checkMaxLen, h]

theorem clientConfig_roundtrip (raw : RawOpenAIClientConfig) :
    OpenAIClientConfig.validate (OpenAIClientConfig.validate raw).model_dump =
      OpenAIClientConfig.validate raw := by
  simp [OpenAIClientConfig.validate, OpenAIClientConfig.model_dump, resolveField_dump]

theorem openaiModel_validate_inv {raw : RawModelConfigDict} {c : OpenAIModelConfig}
    (h : OpenAIModelConfig.validate raw = .ok c) : OpenAICfgInv c := by
  unfold OpenAIModelConfig.validate at h
  split at h
  · simp only [Except.ok.injEq] at h
    subst h
    exact resolveField_isSome _ _
  · exact Except.noConfusion h

theorem openaiModel_roundtrip {c : OpenAIModelConfig} (h : OpenAICfgInv c) :
    OpenAIModelConfig.validate c.model_dump = .ok c := by
  obtain ⟨bu, ak, org, pr, nm⟩ := c
  simp only [OpenAICfgInv] at h
  obtain ⟨u, hu⟩ := Option.isSome_iff_exists.mp h
  subst hu
  simp [OpenAIModelConfig.validate, OpenAIModelConfig.model_dump,
    resolveField_none_dump, resolveField_some_some]

theorem chat_update_model {p : OpenAIChatCompletionParams} {nm : String}
    (h : p.model = some nm) : { p with model := some nm } = p := by
  cases p
  simp_all

theorem chatInv_update {p : OpenAIChatCompletionParams} {nm : String}
    (h : ChatParamsInv p) : ChatParamsInv { p with model := some nm } := by
  obtain ⟨_, h2, h3, h4, h5, h6, h7, h8, h9, h10, h11⟩ := h
  exact ⟨rfl, h2, h3, h4, h5, h6, h7, h8, h9, h10, h11⟩

theorem chatValidate_roundtrip {p : OpenAIChatCompletionParams} (hinv : ChatParamsInv p) :
    OpenAIChatCompletionParams.validate p.model_dump = .ok p := by
  obtain ⟨model, temperature, max_tokens, top_p, fp, pp, stop, stream,
    lb, lp, tlp, n, rf, tls, tc, fc, sd, us⟩ := p
  simp only [ChatParamsInv] at hinv
  obtain ⟨hm, ⟨t1, ht1, hb11, hb12⟩, ⟨t2, ht2, hb21, hb22⟩, ⟨t3, ht3, hb31, hb32⟩,
    ⟨t4, ht4, hb41, hb42⟩, hs, hl, htlp, ⟨nn, hn, hnb1, hnb2⟩, hrf, htools⟩ := hinv
  obtain ⟨mv, hmv⟩ := Option.isSome_iff_exists.mp hm
  obtain ⟨sv, hsv⟩ := Option.isSome_iff_exists.mp hs
  obtain ⟨lv, hlv⟩ := Option.isSome_iff_exists.mp hl
  subst ht1 ht2 ht3 ht4 hn hmv hsv hlv
  unfold OpenAIChatCompletionParams.model_dump OpenAIChatCompletionParams.validate
  simp only [optionMap_some, resolveField_some_some, resolveField_none_dump]
  rw [checkRangeQ_pos hb11 hb12, checkRangeQ_pos hb21 hb22, checkRangeQ_pos hb31 hb32,
      checkRangeQ_pos hb41 hb42, checkRangeI_pos hnb1 hnb2]
  rcases hrf with hrf | hrf | hrf <;> subst hrf
  all_goals
    cases tlp with
    | none =>
      cases tls with
      | none => rfl
      | some l => rw [checkMaxLen_pos (htools l rfl)]; rfl
    | some k =>
      rw [checkRangeI_pos (htlp k rfl).1 (htlp k rfl).2]
      cases tls with
      | none => rfl
      | some l => rw [checkMaxLen_pos (htools l rfl)]; rfl

theorem ok_bind {ε α β : Type} (a : α) (f : α → Except ε β) :
    (Except.ok a : Except ε α) >>= f = f a := rfl

theorem textValidate_roundtrip {p : OpenAITextCompletionParams} (hinv : TextParamsInv p) :
    OpenAITextCompletionParams.validate p.model_dump = .ok p := by
  obtain ⟨model, temperature, max_tokens, top_p, fp, pp, stop, stream, bo, echo, lp, sfx⟩ := p
  simp only [TextParamsInv] at hinv
  obtain ⟨hm, ⟨t1, ht1, hb11, hb12⟩, ⟨t2, ht2, hb21, hb22⟩, ⟨t3, ht3, hb31, hb32⟩,
    ⟨t4, ht4, hb41, hb42⟩, hs, he, hbo, hlp⟩ := hinv
  obtain ⟨mv, hmv⟩ := Option.isSome_iff_exists.mp hm
  obtain ⟨sv, hsv⟩ := Option.isSome_iff_exists.mp hs
  obtain ⟨ev, hev⟩ := Option.isSome_iff_exists.mp he
  subst ht1 ht2 ht3 ht4 hmv hsv hev
  unfold OpenAITextCompletionParams.model_dump OpenAITextCompletionParams.validate
  simp only [resolveField_some_some, resolveField_none_dump]
  rw [checkRangeQ_pos hb11 hb12, checkRangeQ_pos hb21 hb22, checkRangeQ_pos hb31 hb32,
      checkRangeQ_pos hb41 hb42]
  cases bo with
  | none =>
    cases lp with
    | none => rfl
    | some k =>
      simp only [optionMap_some, coerceInt, ok_bind]
      rw [checkRangeI_pos (hlp k rfl).1 (hlp k rfl).2]; rfl
  | some k0 =>
    rw [checkGeI_pos (hbo k0 rfl)]
    cases lp with
    | none => rfl
    | some k =>
      simp only [optionMap_some, coerceInt, ok_bind]
      rw [checkRangeI_pos (hlp k rfl).1 (hlp k rfl).2]; rfl

theorem coerceConfig_ok_openai {cv : ConfigVal} {c : OpenAIModelConfig}
    (h : coerceConfig cv = .ok (.openai c)) :
    cv = .openai c ∨ ∃ d, cv = .dict d ∧ OpenAIModelConfig.validate d = .ok c := by
  cases cv with
  | dict d =>
    simp only [coerceConfig] at h
    split at h
    · cases hv : OpenAIModelConfig.validate d with
      | ok c0 =>
        rw [hv] at h
        injection h with h1
        injection h1 with h2
        subst h2
        exact Or.inr ⟨d, rfl, hv⟩
      | error e => rw [hv] at h; exact Except.noConfusion h
    · split at h
      · cases hv : AzureOpenAIModelConfig.validate d with
        | ok c0 => rw [hv] at h; injection h with h1; exact ConfigVal.noConfusion h1
        | error e => rw [hv] at h; exact Except.noConfusion h
      · split at h
        · cases hv : HFHubModelConfig.validate d with
          | ok c0 => rw [hv] at h; injection h with h1; exact ConfigVal.noConfusion h1
          | error e => rw [hv] at h; exact Except.noConfusion h
        · injection h with h1; exact ConfigVal.noConfusion h1
  | openai c0 =>
    injection h with h1
    injection h1 with h2
    subst h2
    exact Or.inl rfl
  | azure c0 => injection h with h1; exact ConfigVal.noConfusion h1
  | hf c0 => injection h with h1; exact ConfigVal.noConfusion h1
  | pynone => injection h with h1; exact ConfigVal.noConfusion h1

theorem coerceParams_ok_chat {cv : ConfigVal} {pv : ParamsVal} {p : OpenAIChatCompletionParams}
    (h : coerceParams cv pv = .ok (.chat p)) :
    pv = .chat p ∨ ∃ d, pv = .dict d ∧ OpenAIChatCompletionParams.validate d = .ok p := by
  cases pv with
  | dict d =>
    cases cv with
    | openai c =>
      simp only [coerceParams] at h
      cases hv : OpenAIChatCompletionParams.validate d with
      | ok p0 =>
        rw [hv] at h
        injection h with h1
        injection h1 with h2
        subst h2
        exact Or.inr ⟨d, rfl, hv⟩
      | error e => rw [hv] at h; exact Except.noConfusion h
    | azure c =>
      simp only [coerceParams] at h
      cases hv : OpenAIChatCompletionParams.validate d with
      | ok p0 =>
        rw [hv] at h
        injection h with h1
        injection h1 with h2
        subst h2
        exact Or.inr ⟨d, rfl, hv⟩
      | error e => rw [hv] at h; exact Except.noConfusion h
    | hf c => injection h with h1; exact ParamsVal.noConfusion h1
    | dict d2 => injection h with h1; exact ParamsVal.noConfusion h1
    | pynone => injection h with h1; exact ParamsVal.noConfusion h1
  | chat p0 =>
    injection h with h1
    injection h1 with h2
    subst h2
    exact Or.inl rfl
  | text p0 => injection h with h1; exact ParamsVal.noConfusion h1
  | pynone => injection h with h1; exact ParamsVal.noConfusion h1

theorem validateConfigUnion_ok_openai {d : RawModelConfigDict} {c : OpenAIModelConfig}
    (h : validateConfigUnion d = .ok (.openai c)) :
    OpenAIModelConfig.validate d = .ok c := by
  unfold validateConfigUnion at h
  cases hv : OpenAIModelConfig.validate d with
  | ok c0 =>
    rw [hv] at h
    injection h with h1
    injection h1 with h2
    subst h2
    rfl
  | error e =>
    rw [hv] at h
    cases hv2 : AzureOpenAIModelConfig.validate d with
    | ok c0 => rw [hv2] at h; injection h with h1; exact ModelConfigUnion.noConfusion h1
    | error e2 =>
      rw [hv2] at h
      cases hv3 : HFHubModelConfig.validate d with
      | ok c0 => rw [hv3] at h; injection h with h1; exact ModelConfigUnion.noConfusion h1
      | error e3 => rw [hv3] at h; exact Except.noConfusion h

theorem validateParamsUnion_ok_chat {d : RawParamsDict} {p : OpenAIChatCompletionParams}
    (h : validateParamsUnion d = .ok (.chat p)) :
    (∃ e, OpenAITextCompletionParams.validate d = .error e) ∧
    OpenAIChatCompletionParams.validate d = .ok p := by
  unfold validateParamsUnion at h
  cases hv : OpenAITextCompletionParams.validate d with
  | ok p0 => rw [hv] at h; injection h with h1; exact ParamsUnion.noConfusion h1
  | error e =>
    rw [hv] at h
    cases hv2 : OpenAIChatCompletionParams.validate d with
    | ok p0 =>
      rw [hv2] at h
      injection h with h1
      injection h1 with h2
      subst h2
      exact ⟨⟨e, rfl⟩, rfl⟩
    | error e2 => rw [hv2] at h; exact Except.noConfusion h

theorem apiCheck_ok {x : RawField String} {a : String}
    (h : (if resolveField (some "chat") x = some "chat" then Except.ok "chat"
          else if resolveField (some "chat") x = some "completion" then Except.ok "completion"
          else Except.error (SchemaError.validationError "api") :
            Except SchemaError String) = .ok a) :
    a = "chat" ∨ a = "completion" := by
  split at h
  · injection h with h1; exact Or.inl h1.symm
  · split at h
    · injection h with h1; exact Or.inr h1.symm
    · exact Except.noConfusion h

theorem prompty_roundtrip_core {api resp : String} {c : OpenAIModelConfig}
    {p : OpenAIChatCompletionParams}
    (hapi : api = "chat" ∨ api = "completion")
    (hc : OpenAICfgInv c) (hp : ChatParamsInv p)
    (hn : c.name ≠ "") (hm : p.model = some c.name) :
    PromptyModelConfig.validate
        (PromptyModelConfig.model_dump ⟨api, .openai c, .chat p, resp⟩) =
      .ok ⟨api, .openai c, .chat p, resp⟩ := by
  have h1 : coerceConfig (.dict c.model_dump) = .ok (.openai c) := by
    have hred : coerceConfig (.dict c.model_dump) =
        (OpenAIModelConfig.validate c.model_dump).map ConfigVal.openai := rfl
    rw [hred, openaiModel_roundtrip hc]
    rfl
  have h2 : coerceParams (.openai c) (.dict p.model_dump) = .ok (.chat p) := by
    simp only [coerceParams]
    rw [chatValidate_roundtrip hp]
    rfl
  have h3 : syncAssign (.openai c) (.chat p) = .ok (.chat p) := by
    unfold syncAssign
    rw [if_pos (show ((ConfigVal.openai c).truthy && (ParamsVal.chat p).truthy) = true
      from rfl)]
    simp only [syncAssignTruthy]
    rw [if_pos hn, chat_update_model hm]
  unfold PromptyModelConfig.model_dump PromptyModelConfig.validate sync_model_name
  rw [h1]
  simp only [ok_bind]
  rw [h2]
  simp only [ok_bind]
  rw [h3]
  simp only [ok_bind]
  rcases hapi with hapi | hapi <;> subst hapi <;> rfl

theorem promptyValidate_chat_openai_inv {v : PromptyValues} {r : PromptyModelConfig}
    {c : OpenAIModelConfig} {p : OpenAIChatCompletionParams}
    (hin : PromptyInputInv v)
    (h : PromptyModelConfig.validate v = .ok r)
    (hcfg : r.configuration = .openai c)
    (hpar : r.parameters = .chat p) :
    (r.api = "chat" ∨ r.api = "completion") ∧
    OpenAICfgInv c ∧ ChatParamsInv p ∧ c.name ≠ "" := by
  unfold PromptyModelConfig.validate at h
  obtain ⟨v2, hsync, h⟩ := exceptBind_ok h
  obtain ⟨api, hapi, h⟩ := exceptBind_ok h
  obtain ⟨cfgU, hcfgU, h⟩ := exceptBind_ok h
  obtain ⟨parU, hparU, h⟩ := exceptBind_ok h
  simp only [Except.ok.injEq] at h
  subst h
  replace hcfg : cfgU = ModelConfigUnion.openai c := hcfg
  replace hpar : parU = ParamsUnion.chat p := hpar
  subst hcfg
  subst hpar
  refine ⟨apiCheck_ok hapi, ?_⟩
  obtain ⟨cfg2, pv2, hcc, hcp, hsa, hvc, _, _⟩ := sync_model_name_ok hsync
  obtain ⟨pv3, hpv3⟩ : ∃ x, v2.parameters = x := ⟨_, rfl⟩
  rw [hpv3] at hsa hparU
  rw [hvc] at hcfgU
  have hchatinv : ∀ p0 : OpenAIChatCompletionParams,
      coerceParams cfg2 v.parameters = .ok (.chat p0) → ChatParamsInv p0 := by
    intro p0 hcp0
    rcases coerceParams_ok_chat hcp0 with hpass | ⟨dp, _, hval⟩
    · exact hin.2.1 p0 hpass
    · exact chatValidate_inv hval
  cases cfg2 with
  | openai c0 =>
    have hc0 : c0 = c := by
      injection hcfgU with h1
      injection h1
    subst hc0
    have hCinv : OpenAICfgInv c0 := by
      rcases coerceConfig_ok_openai hcc with hpass | ⟨d, _, hval⟩
      · exact hin.1 c0 hpass
      · exact openaiModel_validate_inv hval
    rcases syncAssign_ok hsa with ⟨hfalse, hid⟩ | ⟨c1, hc1, hn1, hcase⟩
    · -- assignment skipped: parameters came through unchanged
      subst hid
      cases pv3 with
      | chat p0 =>
        simp only [ConfigVal.truthy, ParamsVal.truthy, Bool.and_self] at hfalse
        exact Bool.noConfusion hfalse
      | text p0 => injection hparU with h1; exact ParamsUnion.noConfusion h1
      | dict dp =>
        have hdp : dp = ({} : RawParamsDict) := by
          simp [ConfigVal.truthy, ParamsVal.truthy] at hfalse
          exact hfalse
        subst hdp
        have hparU2 : validateParamsUnion ({} : RawParamsDict) =
            .ok (ParamsUnion.chat p) := hparU
        obtain ⟨⟨e, he⟩, _⟩ := validateParamsUnion_ok_chat hparU2
        rw [show OpenAITextCompletionParams.validate ({} : RawParamsDict) =
          .ok defaultTextParams from rfl] at he
        exact Except.noConfusion he
      | pynone => exact Except.noConfusion hparU
    · have hc1' : c1 = c0 := by
        injection hc1 with h1
        exact h1.symm
      subst hc1'
      rcases hcase with ⟨p0, hp0, hp3⟩ | ⟨p0, hp0, hp3⟩
      · rw [hp3] at hparU
        injection hparU with h1
        injection h1 with h2
        have hP0 : ChatParamsInv p0 := by
          rw [hp0] at hcp
          exact hchatinv p0 hcp
        refine ⟨hCinv, ?_, hn1⟩
        rw [← h2]
        exact chatInv_update hP0
      · rw [hp3] at hparU
        injection hparU with h1
        exact ParamsUnion.noConfusion h1
  | dict d =>
    have hCval : OpenAIModelConfig.validate d = .ok c := validateConfigUnion_ok_openai hcfgU
    have hCinv : OpenAICfgInv c := openaiModel_validate_inv hCval
    rcases syncAssign_ok hsa with ⟨hfalse, hid⟩ | ⟨c1, hc1, _, _⟩
    · subst hid
      cases pv3 with
      | chat p0 =>
        have hp0 : p0 = p := by
          injection hparU with h1
          injection h1
        subst hp0
        have hd : d = ({} : RawModelConfigDict) := by
          simp [ConfigVal.truthy, ParamsVal.truthy] at hfalse
          exact hfalse
        subst hd
        have hceq : c = defaultOpenAICfg := by
          have : OpenAIModelConfig.validate ({} : RawModelConfigDict) =
              .ok defaultOpenAICfg := rfl
          rw [this] at hCval
          injection hCval with h1
          exact h1.symm
        refine ⟨hCinv, hchatinv p0 hcp, ?_⟩
        rw [hceq]
        decide
      | text p0 => injection hparU with h1; exact ParamsUnion.noConfusion h1
      | dict dp =>
        have hparU2 : validateParamsUnion dp = .ok (ParamsUnion.chat p) := hparU
        obtain ⟨⟨e, he⟩, hchat⟩ := validateParamsUnion_ok_chat hparU2
        have hPinv : ChatParamsInv p := chatValidate_inv hchat
        simp [ConfigVal.truthy, ParamsVal.truthy] at hfalse
        by_cases hd : d = ({} : RawModelConfigDict)
        · subst hd
          have hceq : c = defaultOpenAICfg := by
            have : OpenAIModelConfig.validate ({} : RawModelConfigDict) =
                .ok defaultOpenAICfg := rfl
            rw [this] at hCval
            injection hCval with h1
            exact h1.symm
          refine ⟨hCinv, hPinv, ?_⟩
          rw [hceq]
          decide
        · have hdp : dp = ({} : RawParamsDict) := hfalse hd
          subst hdp
          rw [show OpenAITextCompletionParams.validate ({} : RawParamsDict) =
            .ok defaultTextParams from rfl] at he
          exact Except.noConfusion he
      | pynone => exact Except.noConfusion hparU
    · exact ConfigVal.noConfusion hc1
  | azure c0 => injection hcfgU with h1; exact ModelConfigUnion.noConfusion h1
  | hf c0 => injection hcfgU with h1; exact ModelConfigUnion.noConfusion h1
  | pynone => exact Except.noConfusion hcfgU

/-- C3 witness: an OpenAI-variant configuration coerces the empty raw
mapping, and a text-variant pass-through under a Hugging Face
configuration. -/
theorem C3_chat_coercion_witness :
    ((∃ c, ConfigVal.openai
        { base_url := some "https://api.openai.com/v1", api_key := none,
          organization := none, project := none, name := "gpt-4o" } =
        ConfigVal.openai c) ∨
     (∃ c, ConfigVal.openai
        { base_url := some "https://api.openai.com/v1", api_key := none,
          organization := none, project := none, name := "gpt-4o" } =
        ConfigVal.azure c)) ∧
    coerceParams
        (ConfigVal.openai
          { base_url := some "https://api.openai.com/v1", api_key := none,
            organization := none, project := none, name := "gpt-4o" })
        (.dict {}) =
      (OpenAIChatCompletionParams.validate {}).map ParamsVal.chat :=
  ⟨Or.inl ⟨_, rfl⟩,
   C3_chat_coercion.1
     (ConfigVal.openai
       { base_url := some "https://api.openai.com/v1", api_key := none,
         organization := none, project := none, name := "gpt-4o" })
     {} (Or.inl ⟨_, rfl⟩)⟩

/-- C8 counterexample: a template-definition record whose parameters are
the text-completion variant does not round-trip: rebuilding the record
from its own serialized field mapping coerces the parameters into the
chat-completion variant, yielding a record unequal to the original. -/
theorem C8_counterexample :
    PromptyModelConfig.validate
        { configuration := .openai defaultOpenAICfg,
          parameters := .text defaultTextParams } =
      .ok { api := "chat", configuration := .openai defaultOpenAICfg,
            parameters := .text defaultTextParams, response := "first" } ∧
    PromptyModelConfig.validate
        (PromptyModelConfig.model_dump
          { api := "chat", configuration := .openai defaultOpenAICfg,
            parameters := .text defaultTextParams, response := "first" }) =
      .ok { api := "chat", configuration := .openai defaultOpenAICfg,
            parameters := .chat defaultChatParams, response := "first" } ∧
    ({ api := "chat", configuration := .openai defaultOpenAICfg,
       parameters := .chat defaultChatParams, response := "first" } : PromptyModelConfig) ≠
      { api := "chat", configuration := .openai defaultOpenAICfg,
        parameters := .text defaultTextParams, response := "first" } :=
  ⟨rfl, rfl, by decide⟩

/-- C8 (amended): round-tripping a record through its own serialized field
mapping is the identity for client-configuration records and for both
parameter-set records; for the template-definition record it holds exactly
when the stored parameters are the chat-completion variant with `model`
equal to the OpenAI configuration's name (given that any model instances
passed into the original construction satisfied their class invariants) —
records holding text-completion parameters are rebuilt with
chat-completion parameters and so differ. -/
theorem C8_roundtrip_amended :
    (∀ raw : RawOpenAIClientConfig,
       OpenAIClientConfig.validate (OpenAIClientConfig.validate raw).model_dump =
         OpenAIClientConfig.validate raw) ∧
    (∀ (raw : RawParamsDict) (p : OpenAIChatCompletionParams),
       OpenAIChatCompletionParams.validate raw = .ok p →
       OpenAIChatCompletionParams.validate p.model_dump = .ok p) ∧
    (∀ (raw : RawParamsDict) (p : OpenAITextCompletionParams),
       OpenAITextCompletionParams.validate raw = .ok p →
       OpenAITextCompletionParams.validate p.model_dump = .ok p) ∧
    (∀ (v : PromptyValues) (r : PromptyModelConfig) (c : OpenAIModelConfig)
       (p : OpenAIChatCompletionParams),
       PromptyInputInv v →
       PromptyModelConfig.validate v = .ok r →
       r.configuration = .openai c →
       r.parameters = .chat p →
       p.model = some c.name →
       PromptyModelConfig.validate r.model_dump = .ok r) := by
  refine ⟨clientConfig_roundtrip, ?_, ?_, ?_⟩
  · intro raw p h
    exact chatValidate_roundtrip (chatValidate_inv h)
  · intro raw p h
    exact textValidate_roundtrip (textValidate_inv h)
  · intro v r c p hin h hcfg hpar hm
    obtain ⟨hapi, hCinv, hPinv, hn⟩ := promptyValidate_chat_openai_inv hin h hcfg hpar
    obtain ⟨rapi, rcfg, rpar, rresp⟩ := r
    replace hapi : rapi = "chat" ∨ rapi = "completion" := hapi
    replace hcfg : rcfg = ModelConfigUnion.openai c := hcfg
    replace hpar : rpar = ParamsUnion.chat p := hpar
    subst hcfg
    subst hpar
    exact prompty_roundtrip_core hapi hCinv hPinv hn hm

/-- C8 amended-claim witness: the `gpt-4o-mini` template definition
round-trips. -/
theorem C8_roundtrip_amended_witness :
    (PromptyInputInv gpt4oMiniValues ∧
     PromptyModelConfig.validate gpt4oMiniValues = .ok gpt4oMiniRecord ∧
     gpt4oMiniRecord.configuration = .openai gpt4oMiniCfg ∧
     gpt4oMiniRecord.parameters = .chat gpt4oMiniChat ∧
     gpt4oMiniChat.model = some gpt4oMiniCfg.name) ∧
    PromptyModelConfig.validate gpt4oMiniRecord.model_dump = .ok gpt4oMiniRecord := by
  have hin : PromptyInputInv gpt4oMiniValues :=
    ⟨fun c h => ConfigVal.noConfusion h, fun p h => ParamsVal.noConfusion h,
     fun p h => ParamsVal.noConfusion h⟩
  exact ⟨⟨hin, rfl, rfl, rfl, rfl⟩,
    C8_roundtrip_amended.2.2.2 gpt4oMiniValues gpt4oMiniRecord gpt4oMiniCfg gpt4oMiniChat
      hin rfl rfl rfl rfl⟩


end Floki
